import Mathlib

/-!
# AutoCut Director: client-side job orchestration (`app/static/app.js`)

A shallow embedding of the browser client's orchestration code: the
version-suffix string transform, the four polling loops, the one-shot
network operations, and the retry / timeout helpers.
-/

namespace AutoCut

/-! ## JavaScript values and errors -/

/-- The JavaScript values the client handles as identifiers, versions and
payload fields: `undefined`, `null`, strings and non-negative integers. -/
inductive JsVal where
  | undefined
  | null
  | str (s : String)
  | num (n : Nat)
  deriving DecidableEq, Repr

namespace JsVal

/-- String conversion as performed by template literals and by `+` with a
string operand (numbers below `10^21` print in decimal). -/
def toStr : JsVal → String
  | undefined => "undefined"
  | null => "null"
  | str s => s
  | num n => toString n

/-- JavaScript truthiness. -/
def truthy : JsVal → Bool
  | undefined => false
  | null => false
  | str s => s != ""
  | num n => n != 0

/-- The expression `a || b`. -/
def orElse (a b : JsVal) : JsVal := if a.truthy then a else b

end JsVal

/-- An error object, reduced to the two properties the client reads. -/
structure JsError where
  name : String
  message : String
  deriving DecidableEq, Repr

/-- The expression `new Error(message)`. -/
def mkError (message : String) : JsError := ⟨"Error", message⟩

/-! ## Version suffix transform -/

/-- The regular expression class `\d`: an ASCII decimal digit. -/
def isDigitChar (c : Char) : Bool := c.isDigit

/-- Does `_v\d+$` match at the very start of `cs`, i.e. is `cs` the text `_v`
followed by one or more digits that reach the end of the input? -/
def matchesVersionSuffix : List Char → Bool
  | a :: b :: d :: ds => a == '_' && b == 'v' && (d :: ds).all isDigitChar
  | _ => false

/-- The replacement `replace(/_v\d+$/, '')` on a list of characters: the
engine tries each start position from the left, and the first position at
which `_v\d+$` matches is cut off together with the rest of the input;
without a match the input is returned unchanged. -/
def stripVersionSuffix : List Char → List Char
  | [] => []
  | c :: cs => if matchesVersionSuffix (c :: cs) then [] else c :: stripVersionSuffix cs

/-- The expression `currentJobId.replace(/_v\d+$/, '')` of `exportVideo`, on a
string. -/
def baseOf (id : String) : String := ⟨stripVersionSuffix id.data⟩

/-- The template `${currentJobId}_v${version}` of `pollAdjustmentProgress`. -/
def deriveNext (currentJobId version : JsVal) : String :=
  currentJobId.toStr ++ "_v" ++ version.toStr

/-! ## Requests, responses and observable effects -/

/-- The backend routes the client requests. -/
inductive Endpoint where
  | createProject
  | createAssembly
  | assemblyStatus (id : String)
  | projectStatus (id : String)
  | projectDetail (id : String)
  | adjust (id : String)
  | exports
  | exportStatus (id : String)
  | health
  deriving DecidableEq, Repr

/-- The URL string of a route, as the source builds it. -/
def Endpoint.url : Endpoint → String
  | .createProject => "/api/projects/create"
  | .createAssembly => "/api/assembly/create"
  | .assemblyStatus id => "/api/assembly/" ++ id ++ "/status"
  | .projectStatus id => "/api/projects/" ++ id ++ "/status"
  | .projectDetail id => "/api/projects/" ++ id
  | .adjust id => "/api/projects/" ++ id ++ "/adjust"
  | .exports => "/api/exports/"
  | .exportStatus id => "/api/exports/" ++ id ++ "/status"
  | .health => "/health"

/-- Is the route one of the three `/status` routes the polling loops query? -/
def Endpoint.isStatus : Endpoint → Bool
  | .assemblyStatus _ => true
  | .projectStatus _ => true
  | .exportStatus _ => true
  | _ => false

/-- The body sent with a request. -/
inductive ReqBody where
  | empty
  | form (fields : List (String × String))
  | adjustments (fields : List (String × String))
  | exportTask (project_id : String) (quality : String)
  deriving DecidableEq, Repr

/-- One entry of the `steps` array of a status payload. -/
structure StepInfo where
  status : JsVal := .undefined
  message : JsVal := .undefined
  deriving DecidableEq, Repr

/-- The `summary` object of a project detail payload. -/
structure Summary where
  hook : JsVal := .undefined
  pace : JsVal := .undefined
  music : JsVal := .undefined
  duration : JsVal := .undefined
  deriving DecidableEq, Repr

/-- A parsed JSON payload: every field the client reads from any response;
an absent field reads as `undefined`. -/
structure Body where
  project_id : JsVal := .undefined
  detail : JsVal := .undefined
  status : JsVal := .undefined
  progress : JsVal := .undefined
  current_step : JsVal := .undefined
  steps : Option (List StepInfo) := none
  error : JsVal := .undefined
  new_version : JsVal := .undefined
  export_id : JsVal := .undefined
  summary : Option Summary := none
  preview_url : JsVal := .undefined
  deriving DecidableEq, Repr

/-- The expression `status.error || fallback`, as the text it contributes to
a message. -/
def Body.failureText (status : Body) (fallback : String) : String :=
  (status.error.orElse (.str fallback)).toStr

/-- What `await fetch(..)` followed by `await response.json()` yields: a
response with its `ok` flag and parsed payload, or a thrown error (the fetch
rejected, or the body was not a usable JSON object). -/
inductive NetResult where
  | response (ok : Bool) (json : Body)
  | failure (error : JsError)
  deriving DecidableEq, Repr

/-- The externally observable actions of the client, in program order. -/
inductive Effect where
  | fetch (endpoint : Endpoint) (method : String) (body : ReqBody)
  | addLog (message : String) (type : String)
  | updateProgress (percent : JsVal)
  | updateTimeline (index : Nat) (status : String) (time : String)
  | showStep (step : Nat)
  | dom (element : String) (property : String) (value : String)
  | alert (message : String)
  | setInterval (handle : Nat) (ms : Nat)
  | clearInterval (handle : Nat)
  | setTimeout (handle : Nat) (ms : Nat)
  | clearTimeout (handle : Nat)
  | abort
  | sleep (ms : Nat)
  | invoke (attempt : Nat)
  deriving DecidableEq, Repr

/-! ## Session state -/

/-- A file chosen by the user. -/
structure File where
  name : String
  type : String
  size : Nat
  deriving DecidableEq, Repr

/-- The callback a `setInterval` polling timer runs, with the values its
closure captured. -/
inductive Poller where
  | assembly
  | project
  | adjustment (version : JsVal) (originalText : String)
  | exportTask (exportId : JsVal)
  deriving DecidableEq, Repr

/-- The global variables of the script, the interval timers currently
scheduled, the answers the network will give to the coming requests (in
order), and the effects performed so far. -/
structure St where
  currentStep : Nat := 1
  selectedFile : Option File := none
  currentWorkflow : String := "single_video"
  videoSource : String := "local"
  manifestFile : Option File := none
  scriptFile : Option File := none
  currentJobId : JsVal := .null
  processingInterval : Option Nat := none
  timers : List (Nat × Poller) := []
  nextHandle : Nat := 1
  net : List NetResult := []
  trace : List Effect := []
  deriving DecidableEq, Repr

/-- How a call of an async function ended. -/
inductive Completion where
  | returned
  | threw (error : JsError)
  | pending
  deriving DecidableEq, Repr

/-! ## Leaf helpers -/

/-- Record an effect. -/
def emit (e : Effect) (st : St) : St := { st with trace := st.trace ++ [e] }

/-- The function `addLog(message, type)`; the source default for `type` is
`'info'`. -/
def addLog (message : String) (type : String) (st : St) : St :=
  emit (.addLog message type) st

/-- The function `updateProgress(percent)`. -/
def updateProgress (percent : JsVal) (st : St) : St := emit (.updateProgress percent) st

/-- The function `updateTimeline(index, status, time)`. -/
def updateTimeline (index : Nat) (status time : String) (st : St) : St :=
  emit (.updateTimeline index status time) st

/-- The function `showStep(step)`: shows the section and records it in
`currentStep`. -/
def showStep (step : Nat) (st : St) : St :=
  { emit (.showStep step) st with currentStep := step }

/-- The function `stopTimer()`: clears the elapsed-time timer when one was
started. -/
def stopTimer (st : St) : St :=
  match st.processingInterval with
  | some h => emit (.clearInterval h) st
  | none => st

/-- The call `clearInterval(pollInterval)` for the polling timer `h`. -/
def clearInterval (h : Nat) (st : St) : St :=
  emit (.clearInterval h) { st with timers := st.timers.filter (fun t => t.1 != h) }

/-- The call `setInterval(callback, 2000)` of a polling function: the timer
gets the next free handle and stays scheduled until cleared. -/
def startPoll (p : Poller) (st : St) : St :=
  emit (.setInterval st.nextHandle 2000)
    { st with timers := st.timers ++ [(st.nextHandle, p)], nextHandle := st.nextHandle + 1 }

/-- Issue a request: the effect is recorded and the next scripted answer is
taken; `none` when the network never answers. -/
def request (ep : Endpoint) (method : String) (body : ReqBody) (st : St) :
    St × Option NetResult :=
  let st1 := emit (.fetch ep method body) st
  match st1.net with
  | [] => (st1, none)
  | r :: rest => ({ st1 with net := rest }, some r)

/-- The callback of `status.steps.forEach` in `pollProjectProgress`. -/
def stepUpdate (index : Nat) (step : StepInfo) (st : St) : St :=
  if step.status = .str "completed" then
    updateTimeline (index + 1) "completed" "已完成" st
  else if step.status = .str "active" then
    updateTimeline (index + 1) "active" (step.message.orElse (.str "进行中...")).toStr st
  else st

/-- The loop `status.steps.forEach((step, index) => ..)`, from `index`. -/
def stepsForEach : List StepInfo → Nat → St → St
  | [], _, st => st
  | step :: steps, index, st => stepsForEach steps (index + 1) (stepUpdate index step st)

/-! ## Preview -/

/-- The four default summary texts of `showPreview`. -/
def defaultSummary (st : St) : St :=
  emit (.dom "summaryDuration" "textContent" "45 秒")
    (emit (.dom "summaryBGM" "textContent" "情绪型")
      (emit (.dom "summaryPace" "textContent" "中等")
        (emit (.dom "summaryHook" "textContent" "前 3 秒精彩片段") st)))

/-- The function `showPreview()`. The flag tells whether the call settled
(it never rejects: its own `catch` absorbs a failed detail request). -/
def showPreview (st : St) : St × Bool :=
  let st1 := showStep 3 st
  match request (.projectDetail st1.currentJobId.toStr) "GET" .empty st1 with
  | (st2, none) => (st2, false)
  | (st2, some (.failure error)) =>
    (defaultSummary (addLog ("预览加载失败: " ++ error.message) "error" st2), true)
  | (st2, some (.response _ project)) =>
    let st3 :=
      match project.summary with
      | some s =>
        emit (.dom "summaryDuration" "textContent" (s.duration.orElse (.str "未知")).toStr)
          (emit (.dom "summaryBGM" "textContent" (s.music.orElse (.str "无")).toStr)
            (emit (.dom "summaryPace" "textContent" (s.pace.orElse (.str "未知")).toStr)
              (emit (.dom "summaryHook" "textContent" (s.hook.orElse (.str "未知")).toStr) st2)))
      | none => defaultSummary st2
    let src := (project.preview_url.orElse
      (.str ("/api/projects/" ++ st3.currentJobId.toStr ++ "/preview"))).toStr
    (addLog "预览加载完成" "info" (emit (.dom "videoPreview" "src" src) st3), true)

/-! ## Polling loops -/

/-- The function `pollAssemblyProgress()`: it only schedules the timer. -/
def pollAssemblyProgress (st : St) : St := startPoll .assembly st

/-- The function `pollProjectProgress()`: it only schedules the timer. -/
def pollProjectProgress (st : St) : St := startPoll .project st

/-- The reporting statements at the head of the `pollAssemblyProgress`
callback: progress bar, then the current step in the log. -/
def assemblyReport (status : Body) (st : St) : St :=
  let st1 := updateProgress status.progress st
  if status.current_step.truthy then
    addLog ("当前步骤: " ++ status.current_step.toStr) "info" st1
  else st1

/-- One run of the interval callback of `pollAssemblyProgress`, for timer
`h`. -/
def assemblyTick (h : Nat) (st : St) : St :=
  match request (.assemblyStatus st.currentJobId.toStr) "GET" .empty st with
  | (st1, none) => st1
  | (st1, some (.failure error)) => addLog ("轮询错误: " ++ error.message) "error" st1
  | (st1, some (.response _ status)) =>
    let st2 := assemblyReport status st1
    if status.status = .str "completed" then
      (showPreview (emit (.sleep 1000)
        (stopTimer (addLog "组装项目处理完成！" "info" (clearInterval h st2))))).1
    else if status.status = .str "error" then
      emit (.alert "处理失败，请重试")
        (stopTimer (addLog ("错误: " ++ status.failureText "处理失败") "error"
          (clearInterval h st2)))
    else st2

/-- The reporting statements at the head of the `pollProjectProgress`
callback: progress bar, timeline steps, then the current step in the log. -/
def projectReport (status : Body) (st : St) : St :=
  let st1 := updateProgress status.progress st
  let st2 :=
    match status.steps with
    | some steps => stepsForEach steps 0 st1
    | none => st1
  if status.current_step.truthy then
    addLog ("当前步骤: " ++ status.current_step.toStr) "info" st2
  else st2

/-- One run of the interval callback of `pollProjectProgress`, for timer
`h`. -/
def projectTick (h : Nat) (st : St) : St :=
  match request (.projectStatus st.currentJobId.toStr) "GET" .empty st with
  | (st1, none) => st1
  | (st1, some (.failure error)) => addLog ("轮询错误: " ++ error.message) "error" st1
  | (st1, some (.response _ status)) =>
    let st2 := projectReport status st1
    if status.status = .str "completed" then
      (showPreview (emit (.sleep 1000)
        (stopTimer (addLog "项目处理完成！" "info" (clearInterval h st2))))).1
    else if status.status = .str "error" then
      emit (.alert "处理失败，请重试")
        (stopTimer (addLog ("错误: " ++ status.failureText "处理失败") "error"
          (clearInterval h st2)))
    else st2

/-! ## Adjustments -/

/-- The `catch` block of `adjustIntent`. -/
def adjustFailed (originalText : String) (error : JsError) (st : St) : St :=
  emit (.alert ("调整失败: " ++ error.message))
    (emit (.dom "btn" "textContent" originalText)
      (emit (.dom "btn" "disabled" "false")
        (addLog ("调整失败: " ++ error.message) "error" st)))

/-- The statements of `adjustIntent` after `await pollAdjustmentProgress(..)`
has resolved; the 3 s timeout later restores the button text. -/
def adjustResolved (st : St) : St :=
  emit (.setTimeout st.nextHandle 3000)
    { emit (.dom "btn" "textContent" "✓ 已应用") (emit (.dom "btn" "disabled" "false") st)
      with nextHandle := st.nextHandle + 1 }

/-- The function `pollAdjustmentProgress(version)`: it schedules the timer;
the promise it returns is settled by a later run of the callback. -/
def pollAdjustmentProgress (version : JsVal) (originalText : String) (st : St) : St :=
  startPoll (.adjustment version originalText) st

/-- One run of the interval callback of `pollAdjustmentProgress`, for timer
`h`; `resolve` and `reject` continue in the awaiting `adjustIntent`. -/
def adjustmentTick (h : Nat) (version : JsVal) (originalText : String) (st : St) : St :=
  let versionProjectId := deriveNext st.currentJobId version
  match request (.projectStatus versionProjectId) "GET" .empty st with
  | (st1, none) => st1
  | (st1, some (.failure error)) => adjustFailed originalText error (clearInterval h st1)
  | (st1, some (.response _ status)) =>
    let st2 := addLog ("调整进度: " ++ status.progress.toStr ++ "%") "info" st1
    if status.status = .str "completed" then
      let st3 := addLog "调整完成，刷新预览..." "info" (clearInterval h st2)
      match showPreview { st3 with currentJobId := .str versionProjectId } with
      | (st4, true) => adjustResolved st4
      | (st4, false) => st4
    else if status.status = .str "error" then
      adjustFailed originalText (mkError (status.failureText "调整失败"))
        (clearInterval h st2)
    else st2

/-- The assignment `adjustments[intentType] = action` on the object literal,
kept as a list of properties in insertion order. -/
def setProp (key value : String) : List (String × String) → List (String × String)
  | [] => [(key, value)]
  | (k, v) :: rest => if k = key then (k, value) :: rest else (k, v) :: setProp key value rest

/-- The function `adjustIntent(intentType, action, event)`; `originalText` is
the text of the clicked button. -/
def adjustIntent (intentType action originalText : String) (st : St) : St :=
  let st1 := emit (.dom "btn" "textContent" "处理中...")
    (emit (.dom "btn" "disabled" "true")
      (addLog ("用户调整: " ++ intentType ++ " - " ++ action) "info" st))
  let adjustments := setProp intentType action
    [("pace", "keep"), ("hook", "keep"), ("music", "keep"), ("subtitle", "keep")]
  match request (.adjust st1.currentJobId.toStr) "POST" (.adjustments adjustments) st1 with
  | (st2, none) => st2
  | (st2, some (.failure error)) => adjustFailed originalText error st2
  | (st2, some (.response ok result)) =>
    if ok then
      pollAdjustmentProgress result.new_version originalText
        (emit (.dom "btn" "textContent" "重新生成中...")
          (addLog ("正在重新生成（版本 " ++ result.new_version.toStr ++ "）...") "info" st2))
    else
      adjustFailed originalText (mkError (result.detail.orElse (.str "调整失败")).toStr) st2

/-! ## Export -/

/-- The `catch` block of `exportVideo`. -/
def exportFailed (error : JsError) (st : St) : St :=
  emit (.alert ("导出失败: " ++ error.message))
    (addLog ("导出失败: " ++ error.message) "error" st)

/-- The statements of `exportVideo` after `await pollExportProgress(..)` has
resolved. -/
def exportResolved (exportId : JsVal) (st : St) : St :=
  addLog "导出完成！" "info"
    (emit (.dom "downloadCard" "dataset.exportId" exportId.toStr)
      (emit (.dom "downloadCard" "style.display" "block") st))

/-- The function `pollExportProgress(exportId)`: it schedules the timer. -/
def pollExportProgress (exportId : JsVal) (st : St) : St :=
  startPoll (.exportTask exportId) st

/-- One run of the interval callback of `pollExportProgress`, for timer `h`;
`resolve` and `reject` continue in the awaiting `exportVideo`. -/
def exportTick (h : Nat) (exportId : JsVal) (st : St) : St :=
  match request (.exportStatus exportId.toStr) "GET" .empty st with
  | (st1, none) => st1
  | (st1, some (.failure error)) => exportFailed error (clearInterval h st1)
  | (st1, some (.response _ status)) =>
    let st2 := addLog ("导出进度: " ++ status.progress.toStr ++ "%") "info" st1
    if status.status = .str "completed" then
      exportResolved exportId (clearInterval h st2)
    else if status.status = .str "error" then
      exportFailed (mkError (status.failureText "导出失败")) (clearInterval h st2)
    else st2

/-- The error thrown when `.replace` is called on a `currentJobId` that is not
a string (the message text depends on the engine). -/
def replaceTypeError : JsError := ⟨"TypeError", "currentJobId.replace is not a function"⟩

/-- The function `exportVideo(quality)`. -/
def exportVideo (quality : String) (st : St) : St :=
  let st1 := addLog ("开始导出: " ++ quality) "info" st
  match st1.currentJobId with
  | .str id =>
    match request .exports "POST" (.exportTask (baseOf id) quality) st1 with
    | (st2, none) => st2
    | (st2, some (.failure error)) => exportFailed error st2
    | (st2, some (.response ok result)) =>
      if ok then
        pollExportProgress result.export_id
          (addLog ("导出任务创建成功 (ID: " ++ result.export_id.toStr ++ ")") "info" st2)
      else
        exportFailed (mkError (result.detail.orElse (.str "创建导出任务失败")).toStr) st2
  | _ => exportFailed replaceTypeError st1

/-! ## Project creation -/

/-- The `catch` blocks of `createProject`; `label` is the text of the alert. -/
def createFailed (label : String) (error : JsError) (st : St) : St :=
  emit (.alert (label ++ error.message))
    (updateTimeline 1 "error" "失败" (addLog ("错误: " ++ error.message) "error" st))

/-- The five option fields `createProject` appends to the form in both
workflows; `platform` and `style` are the values of the two form controls. -/
def optionFields (platform style : String) : List (String × String) :=
  [("platform", platform), ("style", style), ("pace", "medium"),
    ("subtitle_density", "standard"), ("music_preference", "emotional")]

/-- The function `createProject()`. -/
def createProject (platform style : String) (st : St) : St × Completion :=
  let st1 := addLog "开始创建项目..." "info" st
  if st1.currentWorkflow = "single_video" then
    match st1.selectedFile with
    | none =>
      if st1.videoSource = "local" then (st1, .threw (mkError "请选择视频文件"))
      else (st1, .threw (mkError "请选择要上传的视频文件"))
    | some file =>
      let form := ("video", file.name) :: optionFields platform style
      match request .createProject "POST" (.form form) st1 with
      | (st2, none) => (st2, .pending)
      | (st2, some (.failure error)) => (createFailed "创建项目失败: " error st2, .returned)
      | (st2, some (.response ok result)) =>
        if ok then
          (pollProjectProgress
            (addLog ("项目创建成功 (ID: " ++ result.project_id.toStr ++ ")") "info"
              { st2 with currentJobId := result.project_id }), .returned)
        else
          (createFailed "创建项目失败: "
            (mkError (result.detail.orElse (.str "创建项目失败")).toStr) st2, .returned)
  else
    match st1.manifestFile with
    | none => (st1, .threw (mkError "请选择素材清单文件"))
    | some manifest =>
      let script :=
        match st1.scriptFile with
        | some f => [("script_outline", f.name)]
        | none => []
      let form := ("assets_manifest", manifest.name) :: (script ++ optionFields platform style)
      match request .createAssembly "POST" (.form form) st1 with
      | (st2, none) => (st2, .pending)
      | (st2, some (.failure error)) => (createFailed "创建组装项目失败: " error st2, .returned)
      | (st2, some (.response ok result)) =>
        if ok then
          (pollAssemblyProgress
            (addLog ("组装项目创建成功 (ID: " ++ result.project_id.toStr ++ ")") "info"
              { st2 with currentJobId := result.project_id }), .returned)
        else
          (createFailed "创建组装项目失败: "
            (mkError (result.detail.orElse (.str "创建组装项目失败")).toStr) st2, .returned)

/-! ## Timer firing -/

/-- The interval timer `h` fires and the answer to its status query arrives
before anything else happens: the callback runs from start to end (`fire`
followed at once by `answer`, see the section on callbacks in flight for
slower networks). A cleared timer never fires. -/
def tick (h : Nat) (st : St) : St :=
  match st.timers.lookup h with
  | none => st
  | some .assembly => assemblyTick h st
  | some .project => projectTick h st
  | some (.adjustment version originalText) => adjustmentTick h version originalText st
  | some (.exportTask exportId) => exportTick h exportId st

/-- The timer `h` comes due `n` times in a row on a prompt network: each run
of the callback has finished before the timer comes due again. -/
def ticks : Nat → Nat → St → St
  | 0, _, st => st
  | n + 1, h, st => ticks n h (tick h st)

/-! ## Callbacks in flight

An interval callback is `async`: it issues its status query and is suspended
until the answer arrives, while the timer keeps coming due every 2000 ms. The
definitions below let a timer fire again while earlier runs of its callback
are still waiting for their answers. -/

/-- The statements of the `pollProjectProgress` callback that run once its
awaited query has yielded `r`. -/
def projectArrival (h : Nat) (r : NetResult) (st : St) : St :=
  match r with
  | .failure error => addLog ("轮询错误: " ++ error.message) "error" st
  | .response _ status =>
    let st2 := projectReport status st
    if status.status = .str "completed" then
      (showPreview (emit (.sleep 1000)
        (stopTimer (addLog "项目处理完成！" "info" (clearInterval h st2))))).1
    else if status.status = .str "error" then
      emit (.alert "处理失败，请重试")
        (stopTimer (addLog ("错误: " ++ status.failureText "处理失败") "error"
          (clearInterval h st2)))
    else st2

/-- The statements of the `pollAssemblyProgress` callback that run once its
awaited query has yielded `r`. -/
def assemblyArrival (h : Nat) (r : NetResult) (st : St) : St :=
  match r with
  | .failure error => addLog ("轮询错误: " ++ error.message) "error" st
  | .response _ status =>
    let st2 := assemblyReport status st
    if status.status = .str "completed" then
      (showPreview (emit (.sleep 1000)
        (stopTimer (addLog "组装项目处理完成！" "info" (clearInterval h st2))))).1
    else if status.status = .str "error" then
      emit (.alert "处理失败，请重试")
        (stopTimer (addLog ("错误: " ++ status.failureText "处理失败") "error"
          (clearInterval h st2)))
    else st2

/-- The statements of the `pollAdjustmentProgress` callback that run once its
awaited query has yielded `r`; `versionProjectId` is the constant the run
computed before issuing the query. -/
def adjustmentArrival (h : Nat) (versionProjectId originalText : String) (r : NetResult)
    (st : St) : St :=
  match r with
  | .failure error => adjustFailed originalText error (clearInterval h st)
  | .response _ status =>
    let st2 := addLog ("调整进度: " ++ status.progress.toStr ++ "%") "info" st
    if status.status = .str "completed" then
      let st3 := addLog "调整完成，刷新预览..." "info" (clearInterval h st2)
      match showPreview { st3 with currentJobId := .str versionProjectId } with
      | (st4, true) => adjustResolved st4
      | (st4, false) => st4
    else if status.status = .str "error" then
      adjustFailed originalText (mkError (status.failureText "调整失败")) (clearInterval h st2)
    else st2

/-- The statements of the `pollExportProgress` callback that run once its
awaited query has yielded `r`. -/
def exportArrival (h : Nat) (exportId : JsVal) (r : NetResult) (st : St) : St :=
  match r with
  | .failure error => exportFailed error (clearInterval h st)
  | .response _ status =>
    let st2 := addLog ("导出进度: " ++ status.progress.toStr ++ "%") "info" st
    if status.status = .str "completed" then
      exportResolved exportId (clearInterval h st2)
    else if status.status = .str "error" then
      exportFailed (mkError (status.failureText "导出失败")) (clearInterval h st2)
    else st2

/-- A run of a polling callback that has issued its status query and waits
for the answer, with the timer handle and the values it holds. -/
inductive Flight where
  | assembly (h : Nat)
  | project (h : Nat)
  | adjustment (h : Nat) (versionProjectId : String) (originalText : String)
  | exportTask (h : Nat) (exportId : JsVal)
  deriving DecidableEq, Repr

/-- A session together with the callback runs still waiting for an answer,
oldest first. -/
structure Live where
  st : St
  flights : List Flight
  deriving DecidableEq, Repr

/-- The timer `h` comes due: a scheduled timer starts a new run of its
callback, which issues its status query and waits; a cleared timer does
nothing. -/
def fire (h : Nat) (l : Live) : Live :=
  match l.st.timers.lookup h with
  | none => l
  | some .assembly =>
    { st := emit (.fetch (.assemblyStatus l.st.currentJobId.toStr) "GET" .empty) l.st,
      flights := l.flights ++ [.assembly h] }
  | some .project =>
    { st := emit (.fetch (.projectStatus l.st.currentJobId.toStr) "GET" .empty) l.st,
      flights := l.flights ++ [.project h] }
  | some (.adjustment version originalText) =>
    { st := emit (.fetch (.projectStatus (deriveNext l.st.currentJobId version)) "GET" .empty)
        l.st,
      flights := l.flights
        ++ [.adjustment h (deriveNext l.st.currentJobId version) originalText] }
  | some (.exportTask exportId) =>
    { st := emit (.fetch (.exportStatus exportId.toStr) "GET" .empty) l.st,
      flights := l.flights ++ [.exportTask h exportId] }

/-- The answer `r` to the oldest waiting query arrives and that run of the
callback continues to its end. -/
def answer (r : NetResult) (l : Live) : Live :=
  match l.flights with
  | [] => l
  | .assembly h :: rest => { st := assemblyArrival h r l.st, flights := rest }
  | .project h :: rest => { st := projectArrival h r l.st, flights := rest }
  | .adjustment h versionProjectId originalText :: rest =>
    { st := adjustmentArrival h versionProjectId originalText r l.st, flights := rest }
  | .exportTask h exportId :: rest => { st := exportArrival h exportId r l.st, flights := rest }

/-- A timer coming due, or the answer to the oldest waiting query arriving. -/
inductive PollEvent where
  | due (h : Nat)
  | answer (r : NetResult)
  deriving DecidableEq, Repr

/-- The session after a sequence of timer firings and arriving answers. -/
def runPoll : List PollEvent → Live → Live
  | [], l => l
  | .due h :: es, l => runPoll es (fire h l)
  | .answer r :: es, l => runPoll es (answer r l)

/-- The life of one polling loop on timer `h`, as a schedule: `none` is the
timer coming due, `some (ok, body)` is a status response arriving. -/
def loopEvents (h : Nat) : List (Option (Bool × Body)) → List PollEvent
  | [] => []
  | none :: s => .due h :: loopEvents h s
  | some r :: s => .answer (.response r.1 r.2) :: loopEvents h s

/-- The schedule can happen: every arriving response answers a query that is
waiting, `w` queries waiting at the start. -/
def wellTimed : Nat → List (Option (Bool × Body)) → Bool
  | _, [] => true
  | w, none :: s => wellTimed (w + 1) s
  | 0, some _ :: _ => false
  | w + 1, some _ :: s => wellTimed w s

/-- The responses of a schedule, in order of arrival. -/
def responsesOf : List (Option (Bool × Body)) → List (Bool × Body)
  | [] => []
  | none :: s => responsesOf s
  | some r :: s => r :: responsesOf s

/-- The number of times the timer comes due in a schedule. -/
def firings : List (Option (Bool × Body)) → Nat
  | [] => 0
  | none :: s => firings s + 1
  | some _ :: s => firings s

/-- A polling loop on timer `h` lives through the schedule `sched`, then
receives the response `(ok, done)`, after which the timer period elapses
`extra` more times. No callback is waiting at the start. -/
def loopRun (h : Nat) (sched : List (Option (Bool × Body))) (ok : Bool) (done : Body)
    (extra : Nat) (st : St) : St :=
  (runPoll (loopEvents h (sched ++ [some (ok, done)]) ++ List.replicate extra (.due h))
    { st := st, flights := [] }).st

/-! ## Retry and timeout helpers -/

/-- The `for` loop of `retryWithBackoff` with `remaining` iterations left to
run and loop counter `i`; `fn i` is what the call `await fn()` of iteration
`i` yields. The result is the effects in order and either the returned value
or the thrown `lastError` (`none` when it was never assigned). -/
def retryLoop {α : Type} (fn : Nat → Except JsError α) (maxRetries : Int) (initialDelay : Nat) :
    Nat → Nat → Option JsError → List Effect × Except (Option JsError) α
  | 0, _, lastError => ([], .error lastError)
  | remaining + 1, i, _ =>
    match fn i with
    | .ok value => ([.invoke i], .ok value)
    | .error error =>
      let next := retryLoop fn maxRetries initialDelay remaining (i + 1) (some error)
      if (i : Int) < maxRetries - 1 then
        let delay := initialDelay * 2 ^ i
        (.invoke i ::
          .addLog ("重试 " ++ toString (i + 1) ++ "/" ++ toString maxRetries ++ "，等待 " ++
            toString delay ++ "ms...") "info" ::
          .sleep delay :: next.1, next.2)
      else (.invoke i :: next.1, next.2)

/-- The function `retryWithBackoff(fn, maxRetries, initialDelay)`: the loop
`for (let i = 0; i < maxRetries; i++)` runs at most `maxRetries` times (not
at all for `maxRetries <= 0`), then `throw lastError`. -/
def retryWithBackoff {α : Type} (fn : Nat → Except JsError α) (maxRetries : Int)
    (initialDelay : Nat) : List Effect × Except (Option JsError) α :=
  retryLoop fn maxRetries initialDelay maxRetries.toNat 0 none

/-- The response object a fetch resolves with. -/
structure Response where
  ok : Bool
  json : Body
  deriving DecidableEq, Repr

/-- What the network does with the request issued by `fetchWithTimeout`: the
fetch resolves or rejects by itself `after` milliseconds, or it never
settles by itself. -/
inductive FetchFate where
  | resolves (after : Nat) (response : Response)
  | rejects (after : Nat) (error : JsError)
  | stalls
  deriving DecidableEq, Repr

/-- The rejection of a fetch whose signal was aborted (the message text
depends on the engine). -/
def abortError : JsError := ⟨"AbortError", "The user aborted a request."⟩

/-- The error `fetchWithTimeout` creates for a timeout. -/
def timeoutError : JsError := mkError "请求超时，请检查网络连接"

/-- What the awaited fetch yields when it settles by itself before the
deadline timer of `timeout` milliseconds fires; `none` when the timer fires
first (a fetch that would settle exactly at the deadline counts as late). -/
def FetchFate.beforeDeadline (timeout : Nat) : FetchFate → Option (Except JsError Response)
  | .resolves after response => if after < timeout then some (.ok response) else none
  | .rejects after error => if after < timeout then some (.error error) else none
  | .stalls => none

/-- A value thrown by `fetchWithTimeout`: an error object it created with
`new Error(..)`, or the very object it caught. -/
inductive Thrown where
  | created (error : JsError)
  | caught (error : JsError)
  deriving DecidableEq, Repr

/-- The `catch` block of `fetchWithTimeout`, after `clearTimeout`. -/
def rethrowTimed (error : JsError) : Except Thrown Response :=
  if error.name = "AbortError" then .error (.created timeoutError)
  else .error (.caught error)

/-- The function `fetchWithTimeout(url, options, timeout)`; `timeoutId` is the
handle `setTimeout` returns. The deadline timer is armed, then the fetch is
issued with the controller's signal. When the fetch settles first, the timer
is cleared and the response returned or the rejection handled by the `catch`
block. When the timer fires first, its callback calls `controller.abort()`,
the fetch rejects with the abort error, and the `catch` block handles
that. -/
def fetchWithTimeout (ep : Endpoint) (method : String) (body : ReqBody) (timeout : Nat)
    (timeoutId : Nat) (fate : FetchFate) : List Effect × Except Thrown Response :=
  let start := [Effect.setTimeout timeoutId timeout, Effect.fetch ep method body]
  match fate.beforeDeadline timeout with
  | some (.ok response) => (start ++ [.clearTimeout timeoutId], .ok response)
  | some (.error error) => (start ++ [.clearTimeout timeoutId], rethrowTimed error)
  | none => (start ++ [.abort, .clearTimeout timeoutId], rethrowTimed abortError)

/-! ## Reading a trace -/

/-- The status routes queried, in order. -/
def statusQueries : List Effect → List Endpoint
  | [] => []
  | .fetch ep _ _ :: es => if ep.isStatus then ep :: statusQueries es else statusQueries es
  | _ :: es => statusQueries es

/-- The percentages passed to `updateProgress`, in order. -/
def progressReports : List Effect → List JsVal
  | [] => []
  | .updateProgress p :: es => p :: progressReports es
  | _ :: es => progressReports es

/-- The requests issued, in order. -/
def requests : List Effect → List Endpoint
  | [] => []
  | .fetch ep _ _ :: es => ep :: requests es
  | _ :: es => requests es

/-- The delays slept, in order. -/
def sleeps : List Effect → List Nat
  | [] => []
  | .sleep ms :: es => ms :: sleeps es
  | _ :: es => sleeps es

/-- The attempts on which the retried callback was invoked, in order. -/
def invocations : List Effect → List Nat
  | [] => []
  | .invoke i :: es => i :: invocations es
  | _ :: es => invocations es

/-- The attempts and sleeps of a trace, in order. -/
def schedule : List Effect → List Effect
  | [] => []
  | .invoke i :: es => .invoke i :: schedule es
  | .sleep ms :: es => .sleep ms :: schedule es
  | _ :: es => schedule es

/-- The schedule of `m` failed attempts from loop counter `i` on, each
followed by its backoff sleep `d * 2 ^ i`. -/
def backoffRounds (d : Nat) : Nat → Nat → List Effect
  | 0, _ => []
  | m + 1, i => .invoke i :: .sleep (d * 2 ^ i) :: backoffRounds d m (i + 1)

/-- Effects recorded by `updateTimeline`. -/
def Effect.isTimeline : Effect → Bool
  | .updateTimeline _ _ _ => true
  | _ => false

/-! ## Scripted scenarios -/

/-- The answers a polling loop receives when the backend reports the payloads
`pre`, then `done`; `detail` answers the preview request that follows a
completed job and `rest` is whatever the network would answer afterwards. -/
def pollScript (pre : List (Bool × Body)) (ok : Bool) (done : Body) (detail : NetResult)
    (rest : List NetResult) : List NetResult :=
  pre.map (fun r => NetResult.response r.1 r.2) ++ .response ok done :: detail :: rest

/-- One adjustment carried to completion: the click (`intentType`, `action`,
button text), the payload `result` answering the adjust request, the payloads
the poll of the new version sees before `done`, and the answer `detail` to the
preview request. -/
structure Round where
  intentType : String
  action : String
  originalText : String
  result : Body
  waiting : List (Bool × Body)
  ok : Bool
  done : Body
  detail : NetResult

/-- The answers of the network during a round, followed by `rest`. -/
def Round.script (r : Round) (rest : List NetResult) : List NetResult :=
  .response true r.result :: pollScript r.waiting r.ok r.done r.detail rest

/-- The round is a successfully completed adjustment: the poll sees
non-terminal payloads and then status `completed`. -/
def Round.completes (r : Round) : Prop :=
  (∀ x ∈ r.waiting, x.2.status ≠ .str "completed" ∧ x.2.status ≠ .str "error") ∧
    r.done.status = .str "completed"

instance (r : Round) : Decidable r.completes := by
  unfold Round.completes
  infer_instance

/-- The user clicks, `adjustIntent` runs, and the polling timer it started
(which received the next free handle) fires once per scripted status
payload. -/
def Round.run (r : Round) (st : St) : St :=
  ticks (r.waiting.length + 1) st.nextHandle
    (adjustIntent r.intentType r.action r.originalText st)

/-- A sequence of adjustments, one after the other. -/
def runRounds : List Round → St → St
  | [], st => st
  | r :: rs, st => runRounds rs (r.run st)

/-- The answers of the network during a sequence of rounds, followed by
`rest`. -/
def roundsScript : List Round → List NetResult → List NetResult
  | [], rest => rest
  | r :: rs, rest => r.script (roundsScript rs rest)

/-- The identifier reached from `id` when each round appends `_v` and its
reported version to the identifier reached so far. -/
def chainId (id : JsVal) : List Round → JsVal
  | [] => id
  | r :: rs => chainId (.str (deriveNext id r.result.new_version)) rs

/-- A round that regenerates one aspect and reports version `n`, the poll
completing at its first query. -/
def quickRound (intentType action : String) (n : Nat) : Round :=
  { intentType := intentType, action := action, originalText := "调整",
    result := { new_version := .num n }, waiting := [], ok := true,
    done := { status := .str "completed", progress := .num 100 },
    detail := .response true {} }

/-- A session reviewing project `p1` (no timer scheduled), about to receive
the answers of two adjustments reporting versions 1 and 2, then the answer to
an export request. -/
def reviewingP1 : St :=
  { currentJobId := .str "p1", currentStep := 3,
    net := roundsScript [quickRound "hook" "regenerate" 1, quickRound "pace" "faster" 2]
      [.response true { export_id := .str "e1" }] }

/-! ## User and timer events -/

/-- What can happen to a session: the user triggers one of the three network
operations, or a polling timer comes due. -/
inductive Event where
  | createProject (platform style : String)
  | adjustIntent (intentType action originalText : String)
  | exportVideo (quality : String)
  | tick (h : Nat)
  deriving DecidableEq, Repr

/-- The session after one event. -/
def step : Event → St → St
  | .createProject platform style, st => (createProject platform style st).1
  | .adjustIntent intentType action originalText, st =>
    adjustIntent intentType action originalText st
  | .exportVideo quality, st => exportVideo quality st
  | .tick h, st => tick h st

/-- The session after a sequence of events, in order. -/
def runEvents : List Event → St → St
  | [], st => st
  | e :: es, st => runEvents es (step e st)

/-- The polling timers currently scheduled. -/
def activePolls (st : St) : Nat := st.timers.length

/-! ## Version suffix, as a property of the identifier -/

/-- The identifier ends with `_v` followed by one or more decimal digits. -/
def hasVersionSuffix (s : String) : Prop :=
  ∃ p d ds, s.data = p ++ '_' :: 'v' :: d :: ds ∧ (d :: ds).all isDigitChar = true

/-! ## File selection -/

/-- The array `validTypes` of `validateFile`. -/
def validTypes : List String := ["video/mp4", "video/quicktime", "video/x-msvideo"]

/-- The constant `maxSize` of `validateFile`: 2 GB. -/
def maxSize : Nat := 2 * 1024 * 1024 * 1024

/-- The function `validateFile(file)`: returns `true` or throws. -/
def validateFile (file : File) : Except JsError Bool :=
  if ¬ validTypes.contains file.type then
    .error (mkError "不支持的文件格式，请上传 MP4、MOV 或 AVI 格式")
  else if file.size > maxSize then
    .error (mkError "文件太大，最大支持 2GB")
  else .ok true

/-- The error raised when a `const` binding is read inside its own
initialiser (the message text depends on the engine). -/
def referenceError : JsError :=
  ⟨"ReferenceError", "Cannot access currentStep before initialization"⟩

/-- The function `showError(message)`. Its statement
`const currentStep = document.getElementById(..currentStep..)` reads the
constant it is declaring (the local binding hides the global `currentStep`),
so the call throws before the message element is inserted anywhere; the
element created before that point is never attached to the page. -/
def showError (_message : String) (st : St) : St × Completion :=
  (st, .threw referenceError)

/-- The function `handleFileSelect(file)` in force at run time (the second
declaration of that name, which replaces the first); `formatFileSize` is the
text the helper of that name produces for a size. -/
def handleFileSelect (formatFileSize : Nat → String) (file : File) (st : St) :
    St × Completion :=
  match validateFile file with
  | .ok _ =>
    let st1 := { st with selectedFile := some file }
    (addLog ("文件已选择: " ++ file.name) "info"
      (emit (.dom "startBtn" "disabled" "false")
        (emit (.dom "uploadZone" "style.display" "none")
          (emit (.dom "fileSelected" "style.display" "flex")
            (emit (.dom "fileName" "textContent"
              (file.name ++ " (" ++ formatFileSize file.size ++ ")")) st1)))), .returned)
  | .error error =>
    match showError error.message st with
    | (st1, .returned) => ({ st1 with selectedFile := none }, .returned)
    | (st1, outcome) => (st1, outcome)

/-! ## Concrete inputs -/

/-- A retried callback: one transport failure, then a response whose payload
carries an application-level error. -/
def flakyOnce : Nat → Except JsError NetResult
  | 0 => .error ⟨"TypeError", "Failed to fetch"⟩
  | _ => .ok (.response false { detail := .str "bad request" })

/-- A session polling export task `e1` on timer 1: the first status query
fails in transit, the second would be answered `completed`. -/
def exportingE1 : St :=
  { currentJobId := .str "p1", timers := [(1, .exportTask (.str "e1"))], nextHandle := 2,
    net := [.failure ⟨"TypeError", "Failed to fetch"⟩,
      .response true { status := .str "completed", progress := .num 100 }] }

/-- A session polling project `p1` on timer 1: the first status query fails
in transit, the second is answered `completed`, then the preview request is
answered. -/
def glitchP1 : St :=
  { currentJobId := .str "p1", timers := [(1, .project)], nextHandle := 2,
    net := [.failure ⟨"TypeError", "Failed to fetch"⟩,
      .response true { status := .str "completed", progress := .num 100 },
      .response true {}] }

/-- A session polling project `p1` on timer 1 whose job fails with the
message `decode failed`; one more answer stays available. -/
def failingP1 : St :=
  { currentJobId := .str "p1", timers := [(1, .project)], nextHandle := 2,
    net := [.response true { status := .str "error", error := .str "decode failed" },
      .response true { status := .str "completed" }] }

/-- A fresh session with a video selected; the creation request fails in
transit once, and a second attempt would be answered with project `p1`. -/
def flakyCreate : St :=
  { selectedFile := some (File.mk "a.mp4" "video/mp4" 1024),
    net := [.failure ⟨"TypeError", "Failed to fetch"⟩,
      .response true { project_id := .str "p1" }] }

/-- A session reviewing project `p1` with no timer scheduled; the network
accepts the next two adjust requests, reporting versions 1 and 2. -/
def twoClicks : St :=
  { currentJobId := .str "p1", currentStep := 3,
    net := [.response true { new_version := .num 1 }, .response true { new_version := .num 2 }] }

/-- A session in which the video `a.mp4` has been selected. -/
def selectedA : St :=
  { selectedFile := some (File.mk "a.mp4" "video/mp4" 1024) }

/-- A text file, which `validateFile` rejects for its type. -/
def notesTxt : File := File.mk "notes.txt" "text/plain" 10

/-- A session polling project `p1` on timer 1; the preview request will be
answered, and one more answer stays available. -/
def overlapP1 : St :=
  { currentJobId := .str "p1", timers := [(1, .project)], nextHandle := 2,
    processingInterval := some 7,
    net := [.response true {}, .response true { status := .str "completed" }] }

/-- A slow network: the timer comes due three times before the first answer
(`active`, 40 percent) arrives; the second answer is `completed`; the third
query is never answered. -/
def slowSchedule : List (Option (Bool × Body)) :=
  [none, none, none, some (true, { status := .str "active", progress := .num 40 })]

/-! ## The version suffix round trip -/

theorem digitChar_isDigit (m : Nat) (h : m < 10) : isDigitChar (Nat.digitChar m) = true := by
  interval_cases m <;> decide

theorem toDigitsCore_all_digits (f : Nat) : ∀ (n : Nat) (acc : List Char),
    acc.all isDigitChar = true → (Nat.toDigitsCore 10 f n acc).all isDigitChar = true := by
  induction f with
  | zero => intro n acc h; simpa [Nat.toDigitsCore] using h
  | succ f ih =>
    intro n acc h
    have hd : isDigitChar (Nat.digitChar (n % 10)) = true :=
      digitChar_isDigit _ (Nat.mod_lt _ (by decide))
    have hacc : (Nat.digitChar (n % 10) :: acc).all isDigitChar = true := by
      simp only [List.all_cons, hd, h, Bool.and_self]
    simp only [Nat.toDigitsCore]
    split
    · exact hacc
    · exact ih _ _ hacc

theorem toDigitsCore_ne_nil (f : Nat) : ∀ (n : Nat) (c : Char) (acc : List Char),
    Nat.toDigitsCore 10 f n (c :: acc) ≠ [] := by
  induction f with
  | zero => intro n c acc; simp [Nat.toDigitsCore]
  | succ f ih =>
    intro n c acc
    simp only [Nat.toDigitsCore]
    split
    · simp
    · exact ih _ _ _

theorem repr_digits (n : Nat) :
    ∃ d ds, (toString n).data = d :: ds ∧ (d :: ds).all isDigitChar = true := by
  have hall : (Nat.toDigits 10 n).all isDigitChar = true :=
    toDigitsCore_all_digits _ _ _ rfl
  have hne : Nat.toDigits 10 n ≠ [] := by
    unfold Nat.toDigits
    simp only [Nat.toDigitsCore]
    split
    · simp
    · exact toDigitsCore_ne_nil _ _ _ _
  have hdata : (toString n).data = Nat.toDigits 10 n := rfl
  rw [hdata]
  cases hl : Nat.toDigits 10 n with
  | nil => exact absurd hl hne
  | cons d ds => exact ⟨d, ds, rfl, hl ▸ hall⟩

theorem matches_false_of_sep (c : Char) (cs t : List Char) :
    matchesVersionSuffix (c :: (cs ++ '_' :: t)) = false := by
  cases cs with
  | nil =>
    cases t with
    | nil => rfl
    | cons a t => simp [matchesVersionSuffix]
  | cons b cs =>
    cases cs with
    | nil =>
      have : isDigitChar '_' = false := by decide
      simp [matchesVersionSuffix, this]
    | cons d ds =>
      simp only [List.cons_append, matchesVersionSuffix, List.all_cons, List.all_append]
      have : isDigitChar '_' = false := by decide
      simp [this]

theorem strip_append_suffix (x : List Char) (d : Char) (ds : List Char)
    (h : (d :: ds).all isDigitChar = true) :
    stripVersionSuffix (x ++ '_' :: 'v' :: d :: ds) = x := by
  induction x with
  | nil =>
    simp only [List.nil_append, stripVersionSuffix, matchesVersionSuffix, h]
    simp
  | cons c cs ih =>
    have hm := matches_false_of_sep c cs ('v' :: d :: ds)
    show (if matchesVersionSuffix (c :: (cs ++ '_' :: 'v' :: d :: ds)) = true then []
      else c :: stripVersionSuffix (cs ++ '_' :: 'v' :: d :: ds)) = c :: cs
    rw [hm, ih]
    simp

/-- C1: stripping the version suffix from an identifier derived as
`x + "_v" + N`, with `N` a natural number printed in decimal, gives back `x`.
This holds for every string `x`, so in particular for every non-empty
identifier that does not itself end in `_v` and digits. -/
theorem baseOf_deriveNext (x : String) (n : Nat) :
    baseOf (deriveNext (.str x) (.num n)) = x := by
  obtain ⟨d, ds, hd, hall⟩ := repr_digits n
  have hdata : (deriveNext (.str x) (.num n)).data = x.data ++ '_' :: 'v' :: d :: ds := by
    simp [deriveNext, JsVal.toStr, String.data_append, hd]
  simp only [baseOf, hdata, strip_append_suffix _ _ _ hall]

/-! ## Retry with backoff -/

theorem retryLoop_all_fail {α : Type} (fn : Nat → Except JsError α) (err : Nat → JsError)
    (d : Nat) (m : Nat) : ∀ (i : Nat) (last : Option JsError),
    (∀ j, j < i + m + 1 → fn j = .error (err j)) →
    schedule (retryLoop fn ((i + m + 1 : Nat) : Int) d (m + 1) i last).1
        = backoffRounds d m i ++ [.invoke (i + m)] ∧
      invocations (retryLoop fn ((i + m + 1 : Nat) : Int) d (m + 1) i last).1
        = List.range' i (m + 1) ∧
      sleeps (retryLoop fn ((i + m + 1 : Nat) : Int) d (m + 1) i last).1
        = (List.range' i m).map (fun j => d * 2 ^ j) ∧
      (retryLoop fn ((i + m + 1 : Nat) : Int) d (m + 1) i last).2 = .error (some (err (i + m))) := by
  induction m with
  | zero =>
    intro i last hf
    have h0 := hf i (by omega)
    simp [retryLoop, h0, schedule, backoffRounds, invocations, sleeps]
  | succ m ih =>
    intro i last hf
    have h0 := hf i (by omega)
    have hlt : (i : Int) < ((i + (m + 1) + 1 : Nat) : Int) - 1 := by push_cast; omega
    have ih1 := ih (i + 1) (some (err i)) (fun j hj => hf j (by omega))
    have e1 : i + 1 + m + 1 = i + (m + 1) + 1 := by omega
    have e2 : i + 1 + m = i + (m + 1) := by omega
    rw [e1, e2] at ih1
    rw [retryLoop]
    simp only [h0, hlt, if_true]
    simp only [schedule, backoffRounds, List.cons_append, invocations, sleeps]
    obtain ⟨a, b, c, e⟩ := ih1
    refine ⟨by rw [a], ?_, ?_, e⟩
    · rw [b]; rfl
    · rw [c]; rfl

theorem retryLoop_success {α : Type} (fn : Nat → Except JsError α) (err : Nat → JsError)
    (v : α) (n : Int) (d : Nat) (m : Nat) : ∀ (i : Nat) (last : Option JsError) (extra : Nat),
    ((i + m : Nat) : Int) < n →
    (∀ j, i ≤ j → j < i + m → fn j = .error (err j)) → fn (i + m) = .ok v →
    schedule (retryLoop fn n d (m + 1 + extra) i last).1
        = backoffRounds d m i ++ [.invoke (i + m)] ∧
      invocations (retryLoop fn n d (m + 1 + extra) i last).1 = List.range' i (m + 1) ∧
      sleeps (retryLoop fn n d (m + 1 + extra) i last).1
        = (List.range' i m).map (fun j => d * 2 ^ j) ∧
      (retryLoop fn n d (m + 1 + extra) i last).2 = .ok v := by
  induction m with
  | zero =>
    intro i last extra _ _ hok
    have hok0 : fn i = .ok v := by simpa using hok
    have e0 : 0 + 1 + extra = extra + 1 := by omega
    rw [e0, retryLoop]
    simp [hok0, schedule, backoffRounds, invocations, sleeps]
  | succ m ih =>
    intro i last extra hlt hf hok
    have h0 := hf i (by omega) (by omega)
    have hlt1 : (i : Int) < n - 1 := by push_cast at hlt; omega
    have e1 : i + 1 + m = i + (m + 1) := by omega
    have ih1 := ih (i + 1) (some (err i)) extra (by rw [e1]; exact hlt)
      (fun j hj1 hj2 => hf j (by omega) (by omega)) (by rw [e1]; exact hok)
    rw [e1] at ih1
    have e0 : m + 1 + 1 + extra = (m + 1 + extra) + 1 := by omega
    rw [e0, retryLoop]
    simp only [h0, hlt1, if_true]
    simp only [schedule, backoffRounds, List.cons_append, invocations, sleeps]
    obtain ⟨a, b, c, e⟩ := ih1
    refine ⟨by rw [a], ?_, ?_, e⟩
    · rw [b]; rfl
    · rw [c]; rfl

/-- C7: when every invocation of `fn` fails and `maxRetries = n >= 1`,
`retryWithBackoff` invokes `fn` exactly `n` times (attempts `0 .. n-1`),
sleeps exactly `n-1` times with delays `d*2^0, .., d*2^(n-2)` in that order,
one sleep after each attempt but the last, and then throws the error of the
last attempt. -/
theorem retryWithBackoff_exhausts {α : Type} (fn : Nat → Except JsError α)
    (err : Nat → JsError) (n d : Nat) (hn : 1 ≤ n)
    (hfail : ∀ i, i < n → fn i = .error (err i)) :
    invocations (retryWithBackoff fn n d).1 = List.range n ∧
    sleeps (retryWithBackoff fn n d).1 = (List.range (n - 1)).map (fun i => d * 2 ^ i) ∧
    schedule (retryWithBackoff fn n d).1 = backoffRounds d (n - 1) 0 ++ [.invoke (n - 1)] ∧
    (retryWithBackoff fn n d).2 = .error (some (err (n - 1))) := by
  obtain ⟨m, rfl⟩ : ∃ m, n = m + 1 := ⟨n - 1, by omega⟩
  have h := retryLoop_all_fail fn err d m 0 none (fun j hj => hfail j (by omega))
  simp only [Nat.zero_add] at h
  simp only [retryWithBackoff, Int.toNat_ofNat, Nat.add_sub_cancel, List.range_eq_range']
  exact ⟨h.2.1, h.2.2.1, h.1, h.2.2.2⟩

/-- Witness for C7: three attempts that all time out, initial delay 1000 ms:
the waits are 1000 then 2000 and the last error is thrown. -/
theorem retryWithBackoff_exhausts_witness :
    invocations (retryWithBackoff
        (fun _ => (Except.error (mkError "timeout") : Except JsError Nat)) 3 1000).1
      = [0, 1, 2] ∧
    sleeps (retryWithBackoff
        (fun _ => (Except.error (mkError "timeout") : Except JsError Nat)) 3 1000).1
      = [1000, 2000] ∧
    (retryWithBackoff
        (fun _ => (Except.error (mkError "timeout") : Except JsError Nat)) 3 1000).2
      = .error (some (mkError "timeout")) :=
  have h := retryWithBackoff_exhausts
    (fun _ => (Except.error (mkError "timeout") : Except JsError Nat))
    (fun _ => mkError "timeout") 3 1000 (by decide) (fun _ _ => rfl)
  ⟨h.1, h.2.1, h.2.2.2⟩

/-- C8: when the first `k-1` invocations of `fn` fail and the `k`-th returns
`v` (`1 <= k <= maxRetries`), `retryWithBackoff` returns `v` after exactly `k`
invocations and `k-1` sleeps; `fn` is not invoked again. -/
theorem retryWithBackoff_stops_at_response {α : Type} (fn : Nat → Except JsError α)
    (err : Nat → JsError) (v : α) (n k d : Nat) (hk : 1 ≤ k) (hkn : k ≤ n)
    (hfail : ∀ i, i < k - 1 → fn i = .error (err i)) (hok : fn (k - 1) = .ok v) :
    (retryWithBackoff fn n d).2 = .ok v ∧
    invocations (retryWithBackoff fn n d).1 = List.range k ∧
    sleeps (retryWithBackoff fn n d).1 = (List.range (k - 1)).map (fun i => d * 2 ^ i) ∧
    schedule (retryWithBackoff fn n d).1 = backoffRounds d (k - 1) 0 ++ [.invoke (k - 1)] := by
  obtain ⟨m, rfl⟩ : ∃ m, k = m + 1 := ⟨k - 1, by omega⟩
  obtain ⟨extra, rfl⟩ : ∃ extra, n = m + 1 + extra := ⟨n - (m + 1), by omega⟩
  simp only [Nat.add_sub_cancel] at hfail hok
  have h := retryLoop_success fn err v ((m + 1 + extra : Nat) : Int) d m 0 none extra
    (by push_cast; omega) (fun j _ hj => hfail j (by omega)) (by simpa using hok)
  simp only [Nat.zero_add] at h
  simp only [retryWithBackoff, Int.toNat_ofNat, Nat.add_sub_cancel, List.range_eq_range']
  exact ⟨h.2.2.2, h.2.1, h.2.2.1, h.1⟩

/-- Witness for C8: with three attempts allowed, a failure followed by a
response is returned after two invocations and one sleep of 1000 ms. -/
theorem retryWithBackoff_stops_at_response_witness :
    (retryWithBackoff flakyOnce 3 1000).2
      = .ok (.response false { detail := .str "bad request" }) ∧
    invocations (retryWithBackoff flakyOnce 3 1000).1 = [0, 1] ∧
    sleeps (retryWithBackoff flakyOnce 3 1000).1 = [1000] :=
  have h := retryWithBackoff_stops_at_response flakyOnce
    (fun _ => ⟨"TypeError", "Failed to fetch"⟩)
    (.response false { detail := .str "bad request" }) 3 2 1000 (by decide) (by decide)
    (fun i hi => by
      have h0 : i = 0 := by omega
      subst h0
      rfl)
    rfl
  ⟨h.1, h.2.1, h.2.2.1⟩

/-! ## Timed request -/

/-- C9: every call of `fetchWithTimeout` arms the deadline timer with the given
`timeout`, issues exactly one request, and clears that timer once, as its
last action, on every path. A fetch that resolves before the deadline is
returned; a fetch that rejects before the deadline is rethrown unchanged,
unless its error is named `AbortError`; when the deadline passes first
(the fetch is late or never settles) the timer's callback aborts the call and
the timeout error is thrown. The timeout error is thrown exactly when the
awaited fetch rejected with an error named `AbortError`, and the call is
aborted exactly when the deadline passed first. -/
theorem fetchWithTimeout_outcome (ep : Endpoint) (method : String) (body : ReqBody)
    (timeout timeoutId : Nat) (fate : FetchFate) :
    (∀ after response, fate = .resolves after response → after < timeout →
      fetchWithTimeout ep method body timeout timeoutId fate =
        ([.setTimeout timeoutId timeout, .fetch ep method body, .clearTimeout timeoutId],
          .ok response)) ∧
    (∀ after error, fate = .rejects after error → after < timeout →
      error.name ≠ "AbortError" →
      fetchWithTimeout ep method body timeout timeoutId fate =
        ([.setTimeout timeoutId timeout, .fetch ep method body, .clearTimeout timeoutId],
          .error (.caught error))) ∧
    (∀ after error, fate = .rejects after error → after < timeout →
      error.name = "AbortError" →
      fetchWithTimeout ep method body timeout timeoutId fate =
        ([.setTimeout timeoutId timeout, .fetch ep method body, .clearTimeout timeoutId],
          .error (.created timeoutError))) ∧
    ((fate = .stalls ∨ (∃ after response, fate = .resolves after response ∧ timeout ≤ after) ∨
        (∃ after error, fate = .rejects after error ∧ timeout ≤ after)) →
      fetchWithTimeout ep method body timeout timeoutId fate =
        ([.setTimeout timeoutId timeout, .fetch ep method body, .abort,
            .clearTimeout timeoutId],
          .error (.created timeoutError))) ∧
    requests (fetchWithTimeout ep method body timeout timeoutId fate).1 = [ep] ∧
    (fetchWithTimeout ep method body timeout timeoutId fate).1.head?
      = some (.setTimeout timeoutId timeout) ∧
    (fetchWithTimeout ep method body timeout timeoutId fate).1.getLast?
      = some (.clearTimeout timeoutId) ∧
    (fetchWithTimeout ep method body timeout timeoutId fate).1.count (.clearTimeout timeoutId)
      = 1 ∧
    ((fetchWithTimeout ep method body timeout timeoutId fate).2 = .error (.created timeoutError) ↔
      (fate = .stalls ∨ (∃ after response, fate = .resolves after response ∧ timeout ≤ after) ∨
        (∃ after error, fate = .rejects after error ∧
          (timeout ≤ after ∨ error.name = "AbortError")))) ∧
    (.abort ∈ (fetchWithTimeout ep method body timeout timeoutId fate).1 ↔
      (fate = .stalls ∨ (∃ after response, fate = .resolves after response ∧ timeout ≤ after) ∨
        (∃ after error, fate = .rejects after error ∧ timeout ≤ after))) := by
  have habort : abortError.name = "AbortError" := rfl
  cases fate with
  | resolves after response =>
    by_cases h : after < timeout
    · simp [fetchWithTimeout, FetchFate.beforeDeadline, rethrowTimed, requests, h,
        Nat.not_le.2 h]
    · simp [fetchWithTimeout, FetchFate.beforeDeadline, rethrowTimed, requests, h,
        Nat.not_lt.1 h, habort]
  | rejects after error =>
    by_cases h : after < timeout
    · by_cases hn : error.name = "AbortError"
      · simp [fetchWithTimeout, FetchFate.beforeDeadline, rethrowTimed, requests, h,
          Nat.not_le.2 h, hn]
        exact ⟨after, error, ⟨rfl, rfl⟩, Or.inr hn⟩
      · simp [fetchWithTimeout, FetchFate.beforeDeadline, rethrowTimed, requests, h,
          Nat.not_le.2 h, hn]
    · simp [fetchWithTimeout, FetchFate.beforeDeadline, rethrowTimed, requests, h,
        Nat.not_lt.1 h, habort]
      exact ⟨after, error, ⟨rfl, rfl⟩, Or.inl (Nat.not_lt.1 h)⟩
  | stalls =>
    simp [fetchWithTimeout, FetchFate.beforeDeadline, rethrowTimed, requests, habort]
/-! ## Reading traces: how the helpers extend them -/

theorem statusQueries_append (a b : List Effect) :
    statusQueries (a ++ b) = statusQueries a ++ statusQueries b := by
  induction a with
  | nil => rfl
  | cons e es ih =>
    cases e <;> simp [statusQueries, ih]
    split <;> simp

theorem progressReports_append (a b : List Effect) :
    progressReports (a ++ b) = progressReports a ++ progressReports b := by
  induction a with
  | nil => rfl
  | cons e es ih => cases e <;> simp [progressReports, ih]

theorem requests_append (a b : List Effect) :
    requests (a ++ b) = requests a ++ requests b := by
  induction a with
  | nil => rfl
  | cons e es ih => cases e <;> simp [requests, ih]

theorem stepsForEach_frame (steps : List StepInfo) : ∀ (i : Nat) (st : St),
    ∃ d, stepsForEach steps i st = { st with trace := st.trace ++ d } ∧
      ∀ e ∈ d, e.isTimeline = true := by
  induction steps with
  | nil => intro i st; exact ⟨[], by simp [stepsForEach], by simp⟩
  | cons s steps ih =>
    intro i st
    obtain ⟨d, hd, hall⟩ := ih (i + 1) (stepUpdate i s st)
    simp only [stepsForEach, hd]
    unfold stepUpdate
    split
    · refine ⟨Effect.updateTimeline (i + 1) "completed" "已完成" :: d,
        by simp [updateTimeline, emit], ?_⟩
      intro e he
      rcases List.mem_cons.1 he with rfl | he
      · rfl
      · exact hall e he
    · split
      · refine ⟨Effect.updateTimeline (i + 1) "active"
          (s.message.orElse (.str "进行中...")).toStr :: d, by simp [updateTimeline, emit], ?_⟩
        intro e he
        rcases List.mem_cons.1 he with rfl | he
        · rfl
        · exact hall e he
      · exact ⟨d, rfl, hall⟩

theorem statusQueries_timeline (d : List Effect) (h : ∀ e ∈ d, e.isTimeline = true) :
    statusQueries d = [] := by
  induction d with
  | nil => rfl
  | cons e es ih =>
    have he := h e (List.mem_cons_self _ _)
    have := ih (fun x hx => h x (List.mem_cons_of_mem _ hx))
    cases e <;> simp_all [statusQueries, Effect.isTimeline]

theorem progressReports_timeline (d : List Effect) (h : ∀ e ∈ d, e.isTimeline = true) :
    progressReports d = [] := by
  induction d with
  | nil => rfl
  | cons e es ih =>
    have he := h e (List.mem_cons_self _ _)
    have := ih (fun x hx => h x (List.mem_cons_of_mem _ hx))
    cases e <;> simp_all [progressReports, Effect.isTimeline]

theorem count_timeline (d : List Effect) (h : ∀ e ∈ d, e.isTimeline = true) (x : Effect)
    (hx : x.isTimeline = false) : d.count x = 0 := by
  rw [List.count_eq_zero]
  intro hmem
  have := h x hmem
  rw [hx] at this
  exact absurd this (by decide)

theorem step_log_ne (s : String) : "当前步骤: " ++ s ≠ "项目处理完成！" := by
  intro h
  have := congrArg String.data h
  simp [String.data_append] at this

theorem step_log_ne2 (s : String) : "当前步骤: " ++ s ≠ "组装项目处理完成！" := by
  intro h
  have := congrArg String.data h
  simp [String.data_append] at this

theorem request_response (ep : Endpoint) (method : String) (body : ReqBody) (st : St)
    (r : NetResult) (tl : List NetResult) (hnet : st.net = r :: tl) :
    request ep method body st =
      ({ st with net := tl, trace := st.trace ++ [.fetch ep method body] }, some r) := by
  simp [request, emit, hnet]

theorem preview_fail_ne (s : String) : "预览加载失败: " ++ s ≠ "项目处理完成！" := by
  intro h
  have := congrArg String.data h
  simp [String.data_append] at this

theorem preview_fail_ne2 (s : String) : "预览加载失败: " ++ s ≠ "组装项目处理完成！" := by
  intro h
  have := congrArg String.data h
  simp [String.data_append] at this

theorem showPreview_settles (st : St) (r : NetResult) (tl : List NetResult)
    (hnet : st.net = r :: tl) :
    (showPreview st).2 = true ∧ (showPreview st).1.net = tl ∧
    (showPreview st).1.timers = st.timers ∧
    (showPreview st).1.currentJobId = st.currentJobId ∧
    (showPreview st).1.nextHandle = st.nextHandle ∧
    statusQueries (showPreview st).1.trace = statusQueries st.trace ∧
    progressReports (showPreview st).1.trace = progressReports st.trace ∧
    (showPreview st).1.trace.count (.showStep 3) = st.trace.count (.showStep 3) + 1 ∧
    (showPreview st).1.trace.count (.addLog "项目处理完成！" "info")
      = st.trace.count (.addLog "项目处理完成！" "info") ∧
    (showPreview st).1.trace.count (.addLog "组装项目处理完成！" "info")
      = st.trace.count (.addLog "组装项目处理完成！" "info") ∧
    (∀ h, .clearInterval h ∈ st.trace → .clearInterval h ∈ (showPreview st).1.trace) := by
  have hreq := request_response (.projectDetail (showStep 3 st).currentJobId.toStr) "GET" .empty
    (showStep 3 st) r tl (by simpa [showStep, emit] using hnet)
  simp only [showPreview, hreq]
  cases r with
  | failure error =>
    have a1 := preview_fail_ne error.message
    have a2 := preview_fail_ne2 error.message
    simp [showStep, defaultSummary, addLog, emit, statusQueries_append, progressReports_append,
      statusQueries, progressReports, Endpoint.isStatus, List.count_append, List.count_cons, a1, a2]
  | response ok project =>
    cases hs : project.summary with
    | none =>
      simp [hs, showStep, defaultSummary, addLog, emit, statusQueries_append,
        progressReports_append, statusQueries, progressReports, Endpoint.isStatus,
        List.count_append, List.count_cons]
    | some s =>
      simp [hs, showStep, defaultSummary, addLog, emit, statusQueries_append,
        progressReports_append, statusQueries, progressReports, Endpoint.isStatus,
        List.count_append, List.count_cons]

theorem lookup_filter_ne (h : Nat) (l : List (Nat × Poller)) :
    (l.filter (fun t => t.1 != h)).lookup h = none := by
  induction l with
  | nil => rfl
  | cons t l ih =>
    obtain ⟨k, p⟩ := t
    by_cases ht : k = h
    · simp [List.filter_cons, ht, ih]
    · have hb : (h == k) = false := by simpa using fun e => ht e.symm
      simp only [List.filter_cons, bne_iff_ne, ne_eq, ht, not_false_eq_true, decide_True,
        if_true, List.lookup, hb, ih]

theorem ticks_inactive (n h : Nat) (st : St) (hi : st.timers.lookup h = none) :
    ticks n h st = st := by
  induction n with
  | zero => rfl
  | succ n ih => simp [ticks, tick, hi, ih]

theorem projectReport_frame (b : Body) (st : St) :
    (projectReport b st).net = st.net ∧ (projectReport b st).timers = st.timers ∧
    (projectReport b st).currentJobId = st.currentJobId ∧
    (projectReport b st).processingInterval = st.processingInterval ∧
    statusQueries (projectReport b st).trace = statusQueries st.trace ∧
    progressReports (projectReport b st).trace = progressReports st.trace ++ [b.progress] ∧
    (projectReport b st).trace.count (.addLog "项目处理完成！" "info")
      = st.trace.count (.addLog "项目处理完成！" "info") ∧
    (projectReport b st).trace.count (.showStep 3) = st.trace.count (.showStep 3) ∧
    (∀ x, .clearInterval x ∈ st.trace → .clearInterval x ∈ (projectReport b st).trace) := by
  have hlog := step_log_ne b.current_step.toStr
  unfold projectReport
  cases hs : b.steps with
  | none =>
    by_cases hc : b.current_step.truthy = true
    · simp [hc, updateProgress, addLog, emit, statusQueries_append, progressReports_append,
        statusQueries, progressReports, List.count_append, List.count_cons, hlog]
    · simp [hc, updateProgress, addLog, emit, statusQueries_append, progressReports_append,
        statusQueries, progressReports, List.count_append, List.count_cons]
  | some steps =>
    obtain ⟨d, hd, hall⟩ := stepsForEach_frame steps 0 (updateProgress b.progress st)
    have q1 := statusQueries_timeline d hall
    have q2 := progressReports_timeline d hall
    have q3 := count_timeline d hall (.addLog "项目处理完成！" "info") rfl
    have q4 := count_timeline d hall (.showStep 3) rfl
    simp only [hd]
    by_cases hc : b.current_step.truthy = true
    · simp [hc, updateProgress, addLog, emit, statusQueries_append, progressReports_append,
        statusQueries, progressReports, List.count_append, List.count_cons, hlog, q1, q2, q3, q4]
      intro x hx; exact Or.inl hx
    · simp [hc, updateProgress, addLog, emit, statusQueries_append, progressReports_append,
        statusQueries, progressReports, List.count_append, List.count_cons, q1, q2, q3, q4]
      intro x hx; exact Or.inl hx

/-! ## Polling until completion -/

theorem assemblyReport_frame (b : Body) (st : St) :
    (assemblyReport b st).net = st.net ∧ (assemblyReport b st).timers = st.timers ∧
    (assemblyReport b st).currentJobId = st.currentJobId ∧
    (assemblyReport b st).processingInterval = st.processingInterval ∧
    statusQueries (assemblyReport b st).trace = statusQueries st.trace ∧
    progressReports (assemblyReport b st).trace = progressReports st.trace ++ [b.progress] ∧
    (assemblyReport b st).trace.count (.addLog "组装项目处理完成！" "info")
      = st.trace.count (.addLog "组装项目处理完成！" "info") ∧
    (assemblyReport b st).trace.count (.showStep 3) = st.trace.count (.showStep 3) ∧
    (∀ x, .clearInterval x ∈ st.trace → .clearInterval x ∈ (assemblyReport b st).trace) := by
  have hlog := step_log_ne2 b.current_step.toStr
  unfold assemblyReport
  by_cases hc : b.current_step.truthy = true
  · simp [hc, updateProgress, addLog, emit, statusQueries_append, progressReports_append,
      statusQueries, progressReports, List.count_append, List.count_cons, hlog]
  · simp [hc, updateProgress, addLog, emit, statusQueries_append, progressReports_append,
      statusQueries, progressReports, List.count_append, List.count_cons]

theorem finish_frame (msg : String) (h : Nat) (st : St) (detail : NetResult)
    (tl : List NetResult) (hnet : st.net = detail :: tl) :
    (emit (.sleep 1000) (stopTimer (addLog msg "info" (clearInterval h st)))).net
      = detail :: tl ∧
    (emit (.sleep 1000) (stopTimer (addLog msg "info" (clearInterval h st)))).timers
      = st.timers.filter (fun t => t.1 != h) ∧
    (emit (.sleep 1000) (stopTimer (addLog msg "info" (clearInterval h st)))).currentJobId
      = st.currentJobId ∧
    statusQueries (emit (.sleep 1000) (stopTimer (addLog msg "info" (clearInterval h st)))).trace
      = statusQueries st.trace ∧
    progressReports (emit (.sleep 1000) (stopTimer (addLog msg "info" (clearInterval h st)))).trace
      = progressReports st.trace ∧
    (emit (.sleep 1000) (stopTimer (addLog msg "info" (clearInterval h st)))).trace.count
      (.showStep 3) = st.trace.count (.showStep 3) ∧
    (emit (.sleep 1000) (stopTimer (addLog msg "info" (clearInterval h st)))).trace.count
      (.addLog msg "info") = st.trace.count (.addLog msg "info") + 1 ∧
    .clearInterval h ∈
      (emit (.sleep 1000) (stopTimer (addLog msg "info" (clearInterval h st)))).trace := by
  cases hp : st.processingInterval with
  | none =>
    simp [stopTimer, addLog, clearInterval, emit, hp, hnet, statusQueries_append,
      progressReports_append, statusQueries, progressReports, List.count_append, List.count_cons]
  | some x =>
    simp [stopTimer, addLog, clearInterval, emit, hp, hnet, statusQueries_append,
      progressReports_append, statusQueries, progressReports, List.count_append, List.count_cons]

theorem projectTick_waiting (h : Nat) (st : St) (ok : Bool) (b : Body) (tl : List NetResult)
    (hnet : st.net = .response ok b :: tl)
    (h1 : b.status ≠ .str "completed") (h2 : b.status ≠ .str "error") :
    (projectTick h st).net = tl ∧ (projectTick h st).timers = st.timers ∧
    (projectTick h st).currentJobId = st.currentJobId ∧
    statusQueries (projectTick h st).trace
      = statusQueries st.trace ++ [.projectStatus st.currentJobId.toStr] ∧
    progressReports (projectTick h st).trace = progressReports st.trace ++ [b.progress] ∧
    (projectTick h st).trace.count (.addLog "项目处理完成！" "info")
      = st.trace.count (.addLog "项目处理完成！" "info") ∧
    (projectTick h st).trace.count (.showStep 3) = st.trace.count (.showStep 3) := by
  have hreq := request_response (.projectStatus st.currentJobId.toStr) "GET" .empty st _ tl hnet
  obtain ⟨f1, f2, f3, _, f5, f6, f7, f8, _⟩ := projectReport_frame b
    { st with net := tl,
              trace := st.trace ++ [.fetch (.projectStatus st.currentJobId.toStr) "GET" .empty] }
  simp only [projectTick, hreq, h1, h2, if_false]
  refine ⟨f1, f2, f3, ?_, ?_, ?_, ?_⟩
  · rw [f5]; simp [statusQueries_append, statusQueries, Endpoint.isStatus]
  · rw [f6]; simp [progressReports_append, progressReports]
  · rw [f7]; simp [List.count_append, List.count_cons]
  · rw [f8]; simp [List.count_append, List.count_cons]

theorem projectTick_completed (h : Nat) (st : St) (ok : Bool) (b : Body) (detail : NetResult)
    (tl : List NetResult) (hnet : st.net = .response ok b :: detail :: tl)
    (hc : b.status = .str "completed") :
    (projectTick h st).net = tl ∧ (projectTick h st).timers.lookup h = none ∧
    statusQueries (projectTick h st).trace
      = statusQueries st.trace ++ [.projectStatus st.currentJobId.toStr] ∧
    progressReports (projectTick h st).trace = progressReports st.trace ++ [b.progress] ∧
    (projectTick h st).trace.count (.addLog "项目处理完成！" "info")
      = st.trace.count (.addLog "项目处理完成！" "info") + 1 ∧
    (projectTick h st).trace.count (.showStep 3) = st.trace.count (.showStep 3) + 1 ∧
    .clearInterval h ∈ (projectTick h st).trace := by
  have hreq := request_response (.projectStatus st.currentJobId.toStr) "GET" .empty st _ _ hnet
  obtain ⟨f1, f2, f3, _, f5, f6, f7, f8, _⟩ := projectReport_frame b
    { st with net := detail :: tl,
              trace := st.trace ++ [.fetch (.projectStatus st.currentJobId.toStr) "GET" .empty] }
  obtain ⟨g1, g2, g3, g4, g5, g6, g7, g8⟩ := finish_frame "项目处理完成！" h _ detail tl f1
  obtain ⟨_, s2, s3, _, _, s6, s7, s8, s9, _, s11⟩ := showPreview_settles _ detail tl g1
  simp only [projectTick, hreq, hc, if_true]
  refine ⟨s2, ?_, ?_, ?_, ?_, ?_, s11 _ g8⟩
  · rw [s3, g2]; exact lookup_filter_ne _ _
  · rw [s6, g4, f5]; simp [statusQueries_append, statusQueries, Endpoint.isStatus]
  · rw [s7, g5, f6]; simp [progressReports_append, progressReports]
  · rw [s9, g7, f7]; simp [List.count_append, List.count_cons]
  · rw [s8, g6, f8]; simp [List.count_append, List.count_cons]

theorem assemblyTick_waiting (h : Nat) (st : St) (ok : Bool) (b : Body) (tl : List NetResult)
    (hnet : st.net = .response ok b :: tl)
    (h1 : b.status ≠ .str "completed") (h2 : b.status ≠ .str "error") :
    (assemblyTick h st).net = tl ∧ (assemblyTick h st).timers = st.timers ∧
    (assemblyTick h st).currentJobId = st.currentJobId ∧
    statusQueries (assemblyTick h st).trace
      = statusQueries st.trace ++ [.assemblyStatus st.currentJobId.toStr] ∧
    progressReports (assemblyTick h st).trace = progressReports st.trace ++ [b.progress] ∧
    (assemblyTick h st).trace.count (.addLog "组装项目处理完成！" "info")
      = st.trace.count (.addLog "组装项目处理完成！" "info") ∧
    (assemblyTick h st).trace.count (.showStep 3) = st.trace.count (.showStep 3) := by
  have hreq := request_response (.assemblyStatus st.currentJobId.toStr) "GET" .empty st _ tl hnet
  obtain ⟨f1, f2, f3, _, f5, f6, f7, f8, _⟩ := assemblyReport_frame b
    { st with net := tl,
              trace := st.trace ++ [.fetch (.assemblyStatus st.currentJobId.toStr) "GET" .empty] }
  simp only [assemblyTick, hreq, h1, h2, if_false]
  refine ⟨f1, f2, f3, ?_, ?_, ?_, ?_⟩
  · rw [f5]; simp [statusQueries_append, statusQueries, Endpoint.isStatus]
  · rw [f6]; simp [progressReports_append, progressReports]
  · rw [f7]; simp [List.count_append, List.count_cons]
  · rw [f8]; simp [List.count_append, List.count_cons]

theorem assemblyTick_completed (h : Nat) (st : St) (ok : Bool) (b : Body) (detail : NetResult)
    (tl : List NetResult) (hnet : st.net = .response ok b :: detail :: tl)
    (hc : b.status = .str "completed") :
    (assemblyTick h st).net = tl ∧ (assemblyTick h st).timers.lookup h = none ∧
    statusQueries (assemblyTick h st).trace
      = statusQueries st.trace ++ [.assemblyStatus st.currentJobId.toStr] ∧
    progressReports (assemblyTick h st).trace = progressReports st.trace ++ [b.progress] ∧
    (assemblyTick h st).trace.count (.addLog "组装项目处理完成！" "info")
      = st.trace.count (.addLog "组装项目处理完成！" "info") + 1 ∧
    (assemblyTick h st).trace.count (.showStep 3) = st.trace.count (.showStep 3) + 1 ∧
    .clearInterval h ∈ (assemblyTick h st).trace := by
  have hreq := request_response (.assemblyStatus st.currentJobId.toStr) "GET" .empty st _ _ hnet
  obtain ⟨f1, f2, f3, _, f5, f6, f7, f8, _⟩ := assemblyReport_frame b
    { st with net := detail :: tl,
              trace := st.trace ++ [.fetch (.assemblyStatus st.currentJobId.toStr) "GET" .empty] }
  obtain ⟨g1, g2, g3, g4, g5, g6, g7, g8⟩ := finish_frame "组装项目处理完成！" h _ detail tl f1
  obtain ⟨_, s2, s3, _, _, s6, s7, s8, _, s10, s11⟩ := showPreview_settles _ detail tl g1
  simp only [assemblyTick, hreq, hc, if_true]
  refine ⟨s2, ?_, ?_, ?_, ?_, ?_, s11 _ g8⟩
  · rw [s3, g2]; exact lookup_filter_ne _ _
  · rw [s6, g4, f5]; simp [statusQueries_append, statusQueries, Endpoint.isStatus]
  · rw [s7, g5, f6]; simp [progressReports_append, progressReports]
  · rw [s10, g7, f7]; simp [List.count_append, List.count_cons]
  · rw [s8, g6, f8]; simp [List.count_append, List.count_cons]

theorem project_run (h : Nat) (ok : Bool) (done : Body) (detail : NetResult)
    (rest : List NetResult) (extra : Nat) (hdone : done.status = .str "completed")
    (pre : List (Bool × Body)) : ∀ (st : St),
    st.timers.lookup h = some .project →
    (∀ r ∈ pre, r.2.status ≠ .str "completed" ∧ r.2.status ≠ .str "error") →
    st.net = pollScript pre ok done detail rest →
    progressReports (ticks (pre.length + 1 + extra) h st).trace
      = progressReports st.trace ++ (pre.map (fun r => r.2.progress) ++ [done.progress]) ∧
    statusQueries (ticks (pre.length + 1 + extra) h st).trace
      = statusQueries st.trace
        ++ List.replicate (pre.length + 1) (.projectStatus st.currentJobId.toStr) ∧
    (ticks (pre.length + 1 + extra) h st).trace.count (.addLog "项目处理完成！" "info")
      = st.trace.count (.addLog "项目处理完成！" "info") + 1 ∧
    (ticks (pre.length + 1 + extra) h st).trace.count (.showStep 3)
      = st.trace.count (.showStep 3) + 1 ∧
    .clearInterval h ∈ (ticks (pre.length + 1 + extra) h st).trace ∧
    (ticks (pre.length + 1 + extra) h st).timers.lookup h = none ∧
    (ticks (pre.length + 1 + extra) h st).net = rest := by
  induction pre with
  | nil =>
    intro st ht _ hnet
    have htick : tick h st = projectTick h st := by simp [tick, ht]
    obtain ⟨c1, c2, c3, c4, c5, c6, c7⟩ :=
      projectTick_completed h st ok done detail rest (by simpa [pollScript] using hnet) hdone
    have e : ([] : List (Bool × Body)).length + 1 + extra = extra + 1 := by simp; omega
    rw [e, ticks, htick, ticks_inactive _ _ _ c2]
    exact ⟨by simpa using c4, by simpa using c3, c5, c6, c7, c2, c1⟩
  | cons r pre ih =>
    intro st ht hpre hnet
    have htick : tick h st = projectTick h st := by simp [tick, ht]
    have hr := hpre r (List.mem_cons_self _ _)
    obtain ⟨w1, w2, w3, w4, w5, w6, w7⟩ :=
      projectTick_waiting h st r.1 r.2 (pollScript pre ok done detail rest)
        (by simpa [pollScript] using hnet) hr.1 hr.2
    obtain ⟨i1, i2, i3, i4, i5, i6, i7⟩ := ih (projectTick h st) (by rw [w2]; exact ht)
      (fun x hx => hpre x (List.mem_cons_of_mem _ hx)) w1
    have e : (r :: pre).length + 1 + extra = (pre.length + 1 + extra) + 1 := by simp; omega
    rw [e, ticks, htick]
    refine ⟨?_, ?_, ?_, ?_, i5, i6, i7⟩
    · rw [i1, w5]; simp
    · rw [i2, w4, w3]; simp [List.replicate_succ]
    · rw [i3, w6]
    · rw [i4, w7]

theorem assembly_run (h : Nat) (ok : Bool) (done : Body) (detail : NetResult)
    (rest : List NetResult) (extra : Nat) (hdone : done.status = .str "completed")
    (pre : List (Bool × Body)) : ∀ (st : St),
    st.timers.lookup h = some .assembly →
    (∀ r ∈ pre, r.2.status ≠ .str "completed" ∧ r.2.status ≠ .str "error") →
    st.net = pollScript pre ok done detail rest →
    progressReports (ticks (pre.length + 1 + extra) h st).trace
      = progressReports st.trace ++ (pre.map (fun r => r.2.progress) ++ [done.progress]) ∧
    statusQueries (ticks (pre.length + 1 + extra) h st).trace
      = statusQueries st.trace
        ++ List.replicate (pre.length + 1) (.assemblyStatus st.currentJobId.toStr) ∧
    (ticks (pre.length + 1 + extra) h st).trace.count (.addLog "组装项目处理完成！" "info")
      = st.trace.count (.addLog "组装项目处理完成！" "info") + 1 ∧
    (ticks (pre.length + 1 + extra) h st).trace.count (.showStep 3)
      = st.trace.count (.showStep 3) + 1 ∧
    .clearInterval h ∈ (ticks (pre.length + 1 + extra) h st).trace ∧
    (ticks (pre.length + 1 + extra) h st).timers.lookup h = none ∧
    (ticks (pre.length + 1 + extra) h st).net = rest := by
  induction pre with
  | nil =>
    intro st ht _ hnet
    have htick : tick h st = assemblyTick h st := by simp [tick, ht]
    obtain ⟨c1, c2, c3, c4, c5, c6, c7⟩ :=
      assemblyTick_completed h st ok done detail rest (by simpa [pollScript] using hnet) hdone
    have e : ([] : List (Bool × Body)).length + 1 + extra = extra + 1 := by simp; omega
    rw [e, ticks, htick, ticks_inactive _ _ _ c2]
    exact ⟨by simpa using c4, by simpa using c3, c5, c6, c7, c2, c1⟩
  | cons r pre ih =>
    intro st ht hpre hnet
    have htick : tick h st = assemblyTick h st := by simp [tick, ht]
    have hr := hpre r (List.mem_cons_self _ _)
    obtain ⟨w1, w2, w3, w4, w5, w6, w7⟩ :=
      assemblyTick_waiting h st r.1 r.2 (pollScript pre ok done detail rest)
        (by simpa [pollScript] using hnet) hr.1 hr.2
    obtain ⟨i1, i2, i3, i4, i5, i6, i7⟩ := ih (assemblyTick h st) (by rw [w2]; exact ht)
      (fun x hx => hpre x (List.mem_cons_of_mem _ hx)) w1
    have e : (r :: pre).length + 1 + extra = (pre.length + 1 + extra) + 1 := by simp; omega
    rw [e, ticks, htick]
    refine ⟨?_, ?_, ?_, ?_, i5, i6, i7⟩
    · rw [i1, w5]; simp
    · rw [i2, w4, w3]; simp [List.replicate_succ]
    · rw [i3, w6]
    · rw [i4, w7]

/-! ## Polling with callbacks in flight -/

theorem projectReport_sleep (b : Body) (st : St) :
    (projectReport b st).trace.count (.sleep 1000) = st.trace.count (.sleep 1000) := by
  unfold projectReport
  cases hs : b.steps with
  | none =>
    by_cases hc : b.current_step.truthy = true
    · simp [hc, updateProgress, addLog, emit, List.count_append, List.count_cons]
    · simp [hc, updateProgress, addLog, emit, List.count_append, List.count_cons]
  | some steps =>
    obtain ⟨d, hd, hall⟩ := stepsForEach_frame steps 0 (updateProgress b.progress st)
    have q := count_timeline d hall (.sleep 1000) rfl
    simp only [hd]
    by_cases hc : b.current_step.truthy = true
    · simp [hc, updateProgress, addLog, emit, List.count_append, List.count_cons, q]
    · simp [hc, updateProgress, addLog, emit, List.count_append, List.count_cons, q]

theorem assemblyReport_sleep (b : Body) (st : St) :
    (assemblyReport b st).trace.count (.sleep 1000) = st.trace.count (.sleep 1000) := by
  unfold assemblyReport
  by_cases hc : b.current_step.truthy = true
  · simp [hc, updateProgress, addLog, emit, List.count_append, List.count_cons]
  · simp [hc, updateProgress, addLog, emit, List.count_append, List.count_cons]

theorem showPreview_sleep (st : St) (r : NetResult) (tl : List NetResult)
    (hnet : st.net = r :: tl) :
    (showPreview st).1.trace.count (.sleep 1000) = st.trace.count (.sleep 1000) := by
  have hreq := request_response (.projectDetail (showStep 3 st).currentJobId.toStr) "GET" .empty
    (showStep 3 st) r tl (by simpa [showStep, emit] using hnet)
  simp only [showPreview, hreq]
  cases r with
  | failure error =>
    simp [showStep, defaultSummary, addLog, emit, List.count_append, List.count_cons]
  | response ok project =>
    cases hs : project.summary <;>
      simp [hs, showStep, defaultSummary, addLog, emit, List.count_append, List.count_cons]

theorem finish_extra (msg : String) (h : Nat) (st : St) :
    (emit (.sleep 1000) (stopTimer (addLog msg "info" (clearInterval h st)))).trace.count
      (.sleep 1000) = st.trace.count (.sleep 1000) + 1 ∧
    (∀ x, st.processingInterval = some x → .clearInterval x ∈
      (emit (.sleep 1000) (stopTimer (addLog msg "info" (clearInterval h st)))).trace) := by
  cases hp : st.processingInterval with
  | none =>
    simp [stopTimer, addLog, clearInterval, emit, hp, List.count_append, List.count_cons]
  | some x =>
    simp [stopTimer, addLog, clearInterval, emit, hp, List.count_append, List.count_cons]

theorem projectArrival_waiting (h : Nat) (st : St) (ok : Bool) (b : Body)
    (h1 : b.status ≠ .str "completed") (h2 : b.status ≠ .str "error") :
    projectArrival h (.response ok b) st = projectReport b st := by
  simp [projectArrival, h1, h2]

theorem assemblyArrival_waiting (h : Nat) (st : St) (ok : Bool) (b : Body)
    (h1 : b.status ≠ .str "completed") (h2 : b.status ≠ .str "error") :
    assemblyArrival h (.response ok b) st = assemblyReport b st := by
  simp [assemblyArrival, h1, h2]

theorem projectArrival_completed (h : Nat) (st : St) (ok : Bool) (b : Body)
    (detail : NetResult) (tl : List NetResult) (hnet : st.net = detail :: tl)
    (hc : b.status = .str "completed") :
    (projectArrival h (.response ok b) st).net = tl ∧
    (projectArrival h (.response ok b) st).timers.lookup h = none ∧
    statusQueries (projectArrival h (.response ok b) st).trace = statusQueries st.trace ∧
    progressReports (projectArrival h (.response ok b) st).trace
      = progressReports st.trace ++ [b.progress] ∧
    (projectArrival h (.response ok b) st).trace.count (.addLog "项目处理完成！" "info")
      = st.trace.count (.addLog "项目处理完成！" "info") + 1 ∧
    (projectArrival h (.response ok b) st).trace.count (.showStep 3)
      = st.trace.count (.showStep 3) + 1 ∧
    (projectArrival h (.response ok b) st).trace.count (.sleep 1000)
      = st.trace.count (.sleep 1000) + 1 ∧
    .clearInterval h ∈ (projectArrival h (.response ok b) st).trace ∧
    (∀ x, st.processingInterval = some x →
      .clearInterval x ∈ (projectArrival h (.response ok b) st).trace) := by
  obtain ⟨f1, f2, f3, f4, f5, f6, f7, f8, _⟩ := projectReport_frame b st
  have f9 := projectReport_sleep b st
  obtain ⟨g1, g2, g3, g4, g5, g6, g7, g8⟩ :=
    finish_frame "项目处理完成！" h (projectReport b st) detail tl (by rw [f1]; exact hnet)
  obtain ⟨e1, e2⟩ := finish_extra "项目处理完成！" h (projectReport b st)
  obtain ⟨_, s2, s3, _, _, s6, s7, s8, s9, _, s11⟩ := showPreview_settles _ detail tl g1
  have s12 := showPreview_sleep _ detail tl g1
  simp only [projectArrival, hc, if_true]
  refine ⟨s2, ?_, ?_, ?_, ?_, ?_, ?_, s11 _ g8, ?_⟩
  · rw [s3, g2]; exact lookup_filter_ne _ _
  · rw [s6, g4, f5]
  · rw [s7, g5, f6]
  · rw [s9, g7, f7]
  · rw [s8, g6, f8]
  · rw [s12, e1, f9]
  · intro x hx
    exact s11 _ (e2 x (by rw [f4]; exact hx))

theorem assemblyArrival_completed (h : Nat) (st : St) (ok : Bool) (b : Body)
    (detail : NetResult) (tl : List NetResult) (hnet : st.net = detail :: tl)
    (hc : b.status = .str "completed") :
    (assemblyArrival h (.response ok b) st).net = tl ∧
    (assemblyArrival h (.response ok b) st).timers.lookup h = none ∧
    statusQueries (assemblyArrival h (.response ok b) st).trace = statusQueries st.trace ∧
    progressReports (assemblyArrival h (.response ok b) st).trace
      = progressReports st.trace ++ [b.progress] ∧
    (assemblyArrival h (.response ok b) st).trace.count (.addLog "组装项目处理完成！" "info")
      = st.trace.count (.addLog "组装项目处理完成！" "info") + 1 ∧
    (assemblyArrival h (.response ok b) st).trace.count (.showStep 3)
      = st.trace.count (.showStep 3) + 1 ∧
    (assemblyArrival h (.response ok b) st).trace.count (.sleep 1000)
      = st.trace.count (.sleep 1000) + 1 ∧
    .clearInterval h ∈ (assemblyArrival h (.response ok b) st).trace ∧
    (∀ x, st.processingInterval = some x →
      .clearInterval x ∈ (assemblyArrival h (.response ok b) st).trace) := by
  obtain ⟨f1, f2, f3, f4, f5, f6, f7, f8, _⟩ := assemblyReport_frame b st
  have f9 := assemblyReport_sleep b st
  obtain ⟨g1, g2, g3, g4, g5, g6, g7, g8⟩ :=
    finish_frame "组装项目处理完成！" h (assemblyReport b st) detail tl (by rw [f1]; exact hnet)
  obtain ⟨e1, e2⟩ := finish_extra "组装项目处理完成！" h (assemblyReport b st)
  obtain ⟨_, s2, s3, _, _, s6, s7, s8, _, s10, s11⟩ := showPreview_settles _ detail tl g1
  have s12 := showPreview_sleep _ detail tl g1
  simp only [assemblyArrival, hc, if_true]
  refine ⟨s2, ?_, ?_, ?_, ?_, ?_, ?_, s11 _ g8, ?_⟩
  · rw [s3, g2]; exact lookup_filter_ne _ _
  · rw [s6, g4, f5]
  · rw [s7, g5, f6]
  · rw [s10, g7, f7]
  · rw [s8, g6, f8]
  · rw [s12, e1, f9]
  · intro x hx
    exact s11 _ (e2 x (by rw [f4]; exact hx))

theorem runPoll_due_inactive (h : Nat) (n : Nat) (l : Live)
    (hl : l.st.timers.lookup h = none) :
    runPoll (List.replicate n (.due h)) l = l := by
  induction n with
  | zero => rfl
  | succ n ih =>
    have hf : fire h l = l := by simp [fire, hl]
    simp only [List.replicate_succ, runPoll, hf, ih]

theorem tick_project_eq (h : Nat) (st : St) (r : NetResult) (tl : List NetResult)
    (ht : st.timers.lookup h = some .project) (hnet : st.net = r :: tl) :
    tick h st = (answer r (fire h { st := { st with net := tl }, flights := [] })).st := by
  have hreq := request_response (.projectStatus st.currentJobId.toStr) "GET" .empty st r tl hnet
  cases r <;> simp [tick, ht, projectTick, hreq, fire, answer, projectArrival, emit]

theorem tick_assembly_eq (h : Nat) (st : St) (r : NetResult) (tl : List NetResult)
    (ht : st.timers.lookup h = some .assembly) (hnet : st.net = r :: tl) :
    tick h st = (answer r (fire h { st := { st with net := tl }, flights := [] })).st := by
  have hreq := request_response (.assemblyStatus st.currentJobId.toStr) "GET" .empty st r tl hnet
  cases r <;> simp [tick, ht, assemblyTick, hreq, fire, answer, assemblyArrival, emit]

theorem project_live_run (h : Nat) (ok : Bool) (done : Body) (detail : NetResult)
    (rest : List NetResult) (extra : Nat) (hdone : done.status = .str "completed")
    (sched : List (Option (Bool × Body))) : ∀ (w : Nat) (st fin : St),
    st.timers.lookup h = some .project →
    (∀ r ∈ responsesOf sched, r.2.status ≠ .str "completed" ∧ r.2.status ≠ .str "error") →
    wellTimed w (sched ++ [some (ok, done)]) = true →
    st.net = detail :: rest →
    fin = (runPoll (loopEvents h (sched ++ [some (ok, done)]) ++ List.replicate extra (.due h))
      { st := st, flights := List.replicate w (.project h) }).st →
    progressReports fin.trace = progressReports st.trace
      ++ ((responsesOf sched).map (fun r => r.2.progress) ++ [done.progress]) ∧
    statusQueries fin.trace = statusQueries st.trace
      ++ List.replicate (firings sched) (.projectStatus st.currentJobId.toStr) ∧
    fin.trace.count (.addLog "项目处理完成！" "info")
      = st.trace.count (.addLog "项目处理完成！" "info") + 1 ∧
    fin.trace.count (.showStep 3) = st.trace.count (.showStep 3) + 1 ∧
    fin.trace.count (.sleep 1000) = st.trace.count (.sleep 1000) + 1 ∧
    .clearInterval h ∈ fin.trace ∧
    (∀ x, st.processingInterval = some x → .clearInterval x ∈ fin.trace) ∧
    fin.timers.lookup h = none ∧ fin.net = rest := by
  induction sched with
  | nil =>
    intro w st fin ht _ hw hnet hfin
    cases w with
    | zero => simp [wellTimed] at hw
    | succ w =>
      obtain ⟨c1, c2, c3, c4, c5, c6, c7, c8, c9⟩ :=
        projectArrival_completed h st ok done detail rest hnet hdone
      have hrun : fin = projectArrival h (.response ok done) st := by
        have hq := runPoll_due_inactive h extra
          { st := projectArrival h (.response ok done) st,
            flights := List.replicate w (.project h) } c2
        rw [hfin]
        show (runPoll (List.replicate extra (.due h))
          { st := projectArrival h (.response ok done) st,
            flights := List.replicate w (.project h) }).st = _
        rw [hq]
      rw [hrun]
      exact ⟨by simpa [responsesOf] using c4, by simpa [firings] using c3, c5, c6, c7, c8, c9,
        c2, c1⟩
  | cons e sched ih =>
    intro w st fin ht hpre hw hnet hfin
    cases e with
    | none =>
      have hfire : fire h { st := st, flights := List.replicate w (.project h) }
          = { st := emit (.fetch (.projectStatus st.currentJobId.toStr) "GET" .empty) st,
              flights := List.replicate (w + 1) (.project h) } := by
        simp [fire, ht, List.replicate_succ']
      obtain ⟨i1, i2, i3, i4, i5, i6, i7, i8, i9⟩ := ih (w + 1)
        (emit (.fetch (.projectStatus st.currentJobId.toStr) "GET" .empty) st) fin
        (by simpa [emit] using ht) (by simpa [responsesOf] using hpre)
        (by simpa [wellTimed] using hw) (by simpa [emit] using hnet)
        (by rw [hfin]; simp only [List.cons_append, loopEvents, runPoll, hfire]; rfl)
      refine ⟨?_, ?_, ?_, ?_, ?_, i6, ?_, i8, i9⟩
      · rw [i1]; simp [emit, progressReports_append, progressReports, responsesOf]
      · rw [i2]
        simp [emit, statusQueries_append, statusQueries, Endpoint.isStatus, firings,
          List.replicate_succ]
      · rw [i3]; simp [emit, List.count_append, List.count_cons]
      · rw [i4]; simp [emit, List.count_append, List.count_cons]
      · rw [i5]; simp [emit, List.count_append, List.count_cons]
      · intro x hx; exact i7 x (by simpa [emit] using hx)
    | some r =>
      cases w with
      | zero => simp [wellTimed] at hw
      | succ w =>
        have hr := hpre r (by simp [responsesOf])
        have harr := projectArrival_waiting h st r.1 r.2 hr.1 hr.2
        obtain ⟨f1, f2, f3, f4, f5, f6, f7, f8, _⟩ := projectReport_frame r.2 st
        have f9 := projectReport_sleep r.2 st
        obtain ⟨i1, i2, i3, i4, i5, i6, i7, i8, i9⟩ := ih w (projectReport r.2 st) fin
          (by rw [f2]; exact ht)
          (fun x hx => hpre x (by simp [responsesOf, hx]))
          (by simpa [wellTimed] using hw) (by rw [f1]; exact hnet)
          (by
            rw [hfin]
            simp only [List.cons_append, loopEvents, runPoll, List.replicate_succ, answer, harr]
            rfl)
        refine ⟨?_, ?_, ?_, ?_, ?_, i6, ?_, i8, i9⟩
        · rw [i1, f6]; simp [responsesOf]
        · rw [i2, f5, f3]; simp [firings]
        · rw [i3, f7]
        · rw [i4, f8]
        · rw [i5, f9]
        · intro x hx; exact i7 x (by rw [f4]; exact hx)

theorem assembly_live_run (h : Nat) (ok : Bool) (done : Body) (detail : NetResult)
    (rest : List NetResult) (extra : Nat) (hdone : done.status = .str "completed")
    (sched : List (Option (Bool × Body))) : ∀ (w : Nat) (st fin : St),
    st.timers.lookup h = some .assembly →
    (∀ r ∈ responsesOf sched, r.2.status ≠ .str "completed" ∧ r.2.status ≠ .str "error") →
    wellTimed w (sched ++ [some (ok, done)]) = true →
    st.net = detail :: rest →
    fin = (runPoll (loopEvents h (sched ++ [some (ok, done)]) ++ List.replicate extra (.due h))
      { st := st, flights := List.replicate w (.assembly h) }).st →
    progressReports fin.trace = progressReports st.trace
      ++ ((responsesOf sched).map (fun r => r.2.progress) ++ [done.progress]) ∧
    statusQueries fin.trace = statusQueries st.trace
      ++ List.replicate (firings sched) (.assemblyStatus st.currentJobId.toStr) ∧
    fin.trace.count (.addLog "组装项目处理完成！" "info")
      = st.trace.count (.addLog "组装项目处理完成！" "info") + 1 ∧
    fin.trace.count (.showStep 3) = st.trace.count (.showStep 3) + 1 ∧
    fin.trace.count (.sleep 1000) = st.trace.count (.sleep 1000) + 1 ∧
    .clearInterval h ∈ fin.trace ∧
    (∀ x, st.processingInterval = some x → .clearInterval x ∈ fin.trace) ∧
    fin.timers.lookup h = none ∧ fin.net = rest := by
  induction sched with
  | nil =>
    intro w st fin ht _ hw hnet hfin
    cases w with
    | zero => simp [wellTimed] at hw
    | succ w =>
      obtain ⟨c1, c2, c3, c4, c5, c6, c7, c8, c9⟩ :=
        assemblyArrival_completed h st ok done detail rest hnet hdone
      have hrun : fin = assemblyArrival h (.response ok done) st := by
        have hq := runPoll_due_inactive h extra
          { st := assemblyArrival h (.response ok done) st,
            flights := List.replicate w (.assembly h) } c2
        rw [hfin]
        show (runPoll (List.replicate extra (.due h))
          { st := assemblyArrival h (.response ok done) st,
            flights := List.replicate w (.assembly h) }).st = _
        rw [hq]
      rw [hrun]
      exact ⟨by simpa [responsesOf] using c4, by simpa [firings] using c3, c5, c6, c7, c8, c9,
        c2, c1⟩
  | cons e sched ih =>
    intro w st fin ht hpre hw hnet hfin
    cases e with
    | none =>
      have hfire : fire h { st := st, flights := List.replicate w (.assembly h) }
          = { st := emit (.fetch (.assemblyStatus st.currentJobId.toStr) "GET" .empty) st,
              flights := List.replicate (w + 1) (.assembly h) } := by
        simp [fire, ht, List.replicate_succ']
      obtain ⟨i1, i2, i3, i4, i5, i6, i7, i8, i9⟩ := ih (w + 1)
        (emit (.fetch (.assemblyStatus st.currentJobId.toStr) "GET" .empty) st) fin
        (by simpa [emit] using ht) (by simpa [responsesOf] using hpre)
        (by simpa [wellTimed] using hw) (by simpa [emit] using hnet)
        (by rw [hfin]; simp only [List.cons_append, loopEvents, runPoll, hfire]; rfl)
      refine ⟨?_, ?_, ?_, ?_, ?_, i6, ?_, i8, i9⟩
      · rw [i1]; simp [emit, progressReports_append, progressReports, responsesOf]
      · rw [i2]
        simp [emit, statusQueries_append, statusQueries, Endpoint.isStatus, firings,
          List.replicate_succ]
      · rw [i3]; simp [emit, List.count_append, List.count_cons]
      · rw [i4]; simp [emit, List.count_append, List.count_cons]
      · rw [i5]; simp [emit, List.count_append, List.count_cons]
      · intro x hx; exact i7 x (by simpa [emit] using hx)
    | some r =>
      cases w with
      | zero => simp [wellTimed] at hw
      | succ w =>
        have hr := hpre r (by simp [responsesOf])
        have harr := assemblyArrival_waiting h st r.1 r.2 hr.1 hr.2
        obtain ⟨f1, f2, f3, f4, f5, f6, f7, f8, _⟩ := assemblyReport_frame r.2 st
        have f9 := assemblyReport_sleep r.2 st
        obtain ⟨i1, i2, i3, i4, i5, i6, i7, i8, i9⟩ := ih w (assemblyReport r.2 st) fin
          (by rw [f2]; exact ht)
          (fun x hx => hpre x (by simp [responsesOf, hx]))
          (by simpa [wellTimed] using hw) (by rw [f1]; exact hnet)
          (by
            rw [hfin]
            simp only [List.cons_append, loopEvents, runPoll, List.replicate_succ, answer, harr]
            rfl)
        refine ⟨?_, ?_, ?_, ?_, ?_, i6, ?_, i8, i9⟩
        · rw [i1, f6]; simp [responsesOf]
        · rw [i2, f5, f3]; simp [firings]
        · rw [i3, f7]
        · rw [i4, f8]
        · rw [i5, f9]
        · intro x hx; exact i7 x (by rw [f4]; exact hx)

/-- C4: a project polling loop, and likewise an assembly polling loop, whose
status responses are non-terminal ones followed by one with status
`completed` reports progress exactly once per response, in order of arrival;
performs its completion action exactly once (completion log entry, elapsed
timer stopped, one second of sleep, switch to the preview step); cancels its
timer; and issues no status query after the `completed` response: the
queries in the trace are those of the timer firings that came before it,
however many timer periods (`extra`) elapse afterwards. This holds for every
timing: the timer may come due again while earlier queries are still
unanswered (`sched` is any schedule in which each response answers a waiting
query). -/
theorem poll_stops_on_success (h : Nat) (sched : List (Option (Bool × Body))) (ok : Bool)
    (done : Body) (detail : NetResult) (rest : List NetResult) (extra : Nat) (st : St)
    (hpre : ∀ r ∈ responsesOf sched,
      r.2.status ≠ .str "completed" ∧ r.2.status ≠ .str "error")
    (hdone : done.status = .str "completed")
    (htimed : wellTimed 0 (sched ++ [some (ok, done)]) = true)
    (hnet : st.net = detail :: rest) :
    (st.timers.lookup h = some .project →
      progressReports (loopRun h sched ok done extra st).trace = progressReports st.trace
        ++ ((responsesOf sched).map (fun r => r.2.progress) ++ [done.progress]) ∧
      statusQueries (loopRun h sched ok done extra st).trace = statusQueries st.trace
        ++ List.replicate (firings sched) (.projectStatus st.currentJobId.toStr) ∧
      (loopRun h sched ok done extra st).trace.count (.addLog "项目处理完成！" "info")
        = st.trace.count (.addLog "项目处理完成！" "info") + 1 ∧
      (loopRun h sched ok done extra st).trace.count (.showStep 3)
        = st.trace.count (.showStep 3) + 1 ∧
      (loopRun h sched ok done extra st).trace.count (.sleep 1000)
        = st.trace.count (.sleep 1000) + 1 ∧
      .clearInterval h ∈ (loopRun h sched ok done extra st).trace ∧
      (∀ x, st.processingInterval = some x →
        .clearInterval x ∈ (loopRun h sched ok done extra st).trace) ∧
      (loopRun h sched ok done extra st).timers.lookup h = none ∧
      (loopRun h sched ok done extra st).net = rest) ∧
    (st.timers.lookup h = some .assembly →
      progressReports (loopRun h sched ok done extra st).trace = progressReports st.trace
        ++ ((responsesOf sched).map (fun r => r.2.progress) ++ [done.progress]) ∧
      statusQueries (loopRun h sched ok done extra st).trace = statusQueries st.trace
        ++ List.replicate (firings sched) (.assemblyStatus st.currentJobId.toStr) ∧
      (loopRun h sched ok done extra st).trace.count (.addLog "组装项目处理完成！" "info")
        = st.trace.count (.addLog "组装项目处理完成！" "info") + 1 ∧
      (loopRun h sched ok done extra st).trace.count (.showStep 3)
        = st.trace.count (.showStep 3) + 1 ∧
      (loopRun h sched ok done extra st).trace.count (.sleep 1000)
        = st.trace.count (.sleep 1000) + 1 ∧
      .clearInterval h ∈ (loopRun h sched ok done extra st).trace ∧
      (∀ x, st.processingInterval = some x →
        .clearInterval x ∈ (loopRun h sched ok done extra st).trace) ∧
      (loopRun h sched ok done extra st).timers.lookup h = none ∧
      (loopRun h sched ok done extra st).net = rest) :=
  ⟨fun ht => project_live_run h ok done detail rest extra hdone sched 0 st
      (loopRun h sched ok done extra st) ht hpre htimed hnet rfl,
   fun ht => assembly_live_run h ok done detail rest extra hdone sched 0 st
      (loopRun h sched ok done extra st) ht hpre htimed hnet rfl⟩

/-- Witness for C4: on a slow network the timer of the loop polling `p1`
comes due three times before the first answer; the answers are `active` (40)
and `completed` (100). Progress is reported twice, the completion action runs
once, both timers are cleared, the three queries in the trace were all issued
before the `completed` response, and two further timer periods add
nothing. -/
theorem poll_stops_on_success_witness :
    progressReports (loopRun 1 slowSchedule true
      { status := .str "completed", progress := .num 100 } 2 overlapP1).trace
      = [.num 40, .num 100] ∧
    statusQueries (loopRun 1 slowSchedule true
      { status := .str "completed", progress := .num 100 } 2 overlapP1).trace
      = [.projectStatus "p1", .projectStatus "p1", .projectStatus "p1"] ∧
    (loopRun 1 slowSchedule true
      { status := .str "completed", progress := .num 100 } 2 overlapP1).trace.count
        (.addLog "项目处理完成！" "info") = 1 ∧
    (loopRun 1 slowSchedule true
      { status := .str "completed", progress := .num 100 } 2 overlapP1).trace.count
        (.showStep 3) = 1 ∧
    (loopRun 1 slowSchedule true
      { status := .str "completed", progress := .num 100 } 2 overlapP1).trace.count
        (.sleep 1000) = 1 ∧
    .clearInterval 1 ∈ (loopRun 1 slowSchedule true
      { status := .str "completed", progress := .num 100 } 2 overlapP1).trace ∧
    (∀ x, overlapP1.processingInterval = some x → .clearInterval x ∈ (loopRun 1 slowSchedule true
      { status := .str "completed", progress := .num 100 } 2 overlapP1).trace) ∧
    (loopRun 1 slowSchedule true
      { status := .str "completed", progress := .num 100 } 2 overlapP1).timers.lookup 1 = none ∧
    (loopRun 1 slowSchedule true
      { status := .str "completed", progress := .num 100 } 2 overlapP1).net
      = [.response true { status := .str "completed" }] :=
  (poll_stops_on_success 1 slowSchedule true { status := .str "completed", progress := .num 100 }
    (.response true {}) [.response true { status := .str "completed" }] 2 overlapP1
    (by decide) rfl (by decide) rfl).1 rfl
/-! ## Failed queries and failed jobs -/

theorem poll_error_ne (s : String) : "轮询错误: " ++ s ≠ "项目处理完成！" := by
  intro h
  have := congrArg String.data h
  simp [String.data_append] at this

theorem poll_error_ne2 (s : String) : "轮询错误: " ++ s ≠ "组装项目处理完成！" := by
  intro h
  have := congrArg String.data h
  simp [String.data_append] at this

theorem projectTick_failure (h : Nat) (st : St) (e : JsError) (tl : List NetResult)
    (hnet : st.net = .failure e :: tl) :
    projectTick h st = { st with
      net := tl,
      trace := st.trace ++ [.fetch (.projectStatus st.currentJobId.toStr) "GET" .empty,
        .addLog ("轮询错误: " ++ e.message) "error"] } := by
  have hreq := request_response (.projectStatus st.currentJobId.toStr) "GET" .empty st _ tl hnet
  simp [projectTick, hreq, addLog, emit]

theorem assemblyTick_failure (h : Nat) (st : St) (e : JsError) (tl : List NetResult)
    (hnet : st.net = .failure e :: tl) :
    assemblyTick h st = { st with
      net := tl,
      trace := st.trace ++ [.fetch (.assemblyStatus st.currentJobId.toStr) "GET" .empty,
        .addLog ("轮询错误: " ++ e.message) "error"] } := by
  have hreq := request_response (.assemblyStatus st.currentJobId.toStr) "GET" .empty st _ tl hnet
  simp [assemblyTick, hreq, addLog, emit]

theorem adjustmentTick_failure (h : Nat) (v : JsVal) (t : String) (st : St) (e : JsError)
    (tl : List NetResult) (hnet : st.net = .failure e :: tl) :
    adjustmentTick h v t st = adjustFailed t e (clearInterval h { st with
      net := tl,
      trace := st.trace ++ [.fetch (.projectStatus (deriveNext st.currentJobId v)) "GET" .empty] })
      := by
  have hreq := request_response (.projectStatus (deriveNext st.currentJobId v)) "GET" .empty st
    _ tl hnet
  simp [adjustmentTick, hreq]

theorem exportTick_failure (h : Nat) (x : JsVal) (st : St) (e : JsError)
    (tl : List NetResult) (hnet : st.net = .failure e :: tl) :
    exportTick h x st = exportFailed e (clearInterval h { st with
      net := tl,
      trace := st.trace ++ [.fetch (.exportStatus x.toStr) "GET" .empty] }) := by
  have hreq := request_response (.exportStatus x.toStr) "GET" .empty st _ tl hnet
  simp [exportTick, hreq]

theorem adjustFailed_frame (t : String) (e : JsError) (st : St) :
    (adjustFailed t e st).timers = st.timers ∧ (adjustFailed t e st).net = st.net ∧
    (adjustFailed t e st).currentJobId = st.currentJobId ∧
    statusQueries (adjustFailed t e st).trace = statusQueries st.trace ∧
    .alert ("调整失败: " ++ e.message) ∈ (adjustFailed t e st).trace ∧
    .addLog ("调整失败: " ++ e.message) "error" ∈ (adjustFailed t e st).trace ∧
    (∀ x, x ∈ st.trace → x ∈ (adjustFailed t e st).trace) := by
  simp [adjustFailed, addLog, emit, statusQueries_append, statusQueries]
  intro x hx; exact Or.inl hx

theorem exportFailed_frame (e : JsError) (st : St) :
    (exportFailed e st).timers = st.timers ∧ (exportFailed e st).net = st.net ∧
    (exportFailed e st).currentJobId = st.currentJobId ∧
    statusQueries (exportFailed e st).trace = statusQueries st.trace ∧
    .alert ("导出失败: " ++ e.message) ∈ (exportFailed e st).trace ∧
    .addLog ("导出失败: " ++ e.message) "error" ∈ (exportFailed e st).trace ∧
    (∀ x, x ∈ st.trace → x ∈ (exportFailed e st).trace) := by
  simp [exportFailed, addLog, emit, statusQueries_append, statusQueries]
  intro x hx; exact Or.inl hx

theorem clearInterval_frame (h : Nat) (st : St) :
    (clearInterval h st).timers.lookup h = none ∧ (clearInterval h st).net = st.net ∧
    (clearInterval h st).currentJobId = st.currentJobId ∧
    statusQueries (clearInterval h st).trace = statusQueries st.trace ∧
    .clearInterval h ∈ (clearInterval h st).trace := by
  simp [clearInterval, emit, statusQueries_append, statusQueries, lookup_filter_ne]

/-- C5 (as amended): in project and assembly polling a tick whose status query
fails is only logged and the timer stays scheduled, so a failed query
followed by a `completed` response still reaches the completion action; in
adjustment and export polling a failed status query cancels the timer and
rejects with that error (the `catch` of `adjustIntent` / `exportVideo` then
logs it and alerts), and no later answer is ever requested. -/
theorem poll_query_failure (h : Nat) (e : JsError) (tl : List NetResult) (st : St)
    (hnet : st.net = .failure e :: tl) :
    (st.timers.lookup h = some .project →
      tick h st = { st with
        net := tl,
        trace := st.trace ++ [.fetch (.projectStatus st.currentJobId.toStr) "GET" .empty,
          .addLog ("轮询错误: " ++ e.message) "error"] } ∧
      (tick h st).timers.lookup h = some .project ∧
      ∀ ok done detail rest extra, tl = .response ok done :: detail :: rest →
        done.status = .str "completed" →
        (ticks (extra + 2) h st).trace.count (.addLog "项目处理完成！" "info")
          = st.trace.count (.addLog "项目处理完成！" "info") + 1 ∧
        (ticks (extra + 2) h st).trace.count (.showStep 3) = st.trace.count (.showStep 3) + 1 ∧
        (ticks (extra + 2) h st).timers.lookup h = none ∧
        (ticks (extra + 2) h st).net = rest) ∧
    (st.timers.lookup h = some .assembly →
      tick h st = { st with
        net := tl,
        trace := st.trace ++ [.fetch (.assemblyStatus st.currentJobId.toStr) "GET" .empty,
          .addLog ("轮询错误: " ++ e.message) "error"] } ∧
      (tick h st).timers.lookup h = some .assembly ∧
      ∀ ok done detail rest extra, tl = .response ok done :: detail :: rest →
        done.status = .str "completed" →
        (ticks (extra + 2) h st).trace.count (.addLog "组装项目处理完成！" "info")
          = st.trace.count (.addLog "组装项目处理完成！" "info") + 1 ∧
        (ticks (extra + 2) h st).trace.count (.showStep 3) = st.trace.count (.showStep 3) + 1 ∧
        (ticks (extra + 2) h st).timers.lookup h = none ∧
        (ticks (extra + 2) h st).net = rest) ∧
    (∀ v t, st.timers.lookup h = some (.adjustment v t) →
      tick h st = adjustFailed t e (clearInterval h { st with
        net := tl,
        trace := st.trace
          ++ [.fetch (.projectStatus (deriveNext st.currentJobId v)) "GET" .empty] }) ∧
      .clearInterval h ∈ (tick h st).trace ∧
      .alert ("调整失败: " ++ e.message) ∈ (tick h st).trace ∧
      (tick h st).timers.lookup h = none ∧
      ∀ n, ticks (n + 1) h st = tick h st ∧ (ticks (n + 1) h st).net = tl) ∧
    (∀ x, st.timers.lookup h = some (.exportTask x) →
      tick h st = exportFailed e (clearInterval h { st with
        net := tl,
        trace := st.trace ++ [.fetch (.exportStatus x.toStr) "GET" .empty] }) ∧
      .clearInterval h ∈ (tick h st).trace ∧
      .alert ("导出失败: " ++ e.message) ∈ (tick h st).trace ∧
      (tick h st).timers.lookup h = none ∧
      ∀ n, ticks (n + 1) h st = tick h st ∧ (ticks (n + 1) h st).net = tl) := by
  refine ⟨?_, ?_, ?_, ?_⟩
  · intro ht
    have htick : tick h st = projectTick h st := by simp [tick, ht]
    have hf := projectTick_failure h st e tl hnet
    have ht1 : (projectTick h st).timers.lookup h = some .project := by rw [hf]; exact ht
    refine ⟨htick ▸ hf, htick ▸ ht1, ?_⟩
    intro ok done detail rest extra htl hdone
    have hn1 : (projectTick h st).net = pollScript [] ok done detail rest := by
      rw [hf]; simp [pollScript, htl]
    obtain ⟨_, _, r3, r4, _, r6, r7⟩ :=
      project_run h ok done detail rest extra hdone [] (projectTick h st) ht1 (by simp) hn1
    have e2 : ([] : List (Bool × Body)).length + 1 + extra = extra + 1 := by simp; omega
    rw [e2] at r3 r4 r6 r7
    have hlog := poll_error_ne e.message
    have c1 : (projectTick h st).trace.count (.addLog "项目处理完成！" "info")
        = st.trace.count (.addLog "项目处理完成！" "info") := by
      rw [hf]; simp [List.count_append, List.count_cons, hlog]
    have c2 : (projectTick h st).trace.count (.showStep 3) = st.trace.count (.showStep 3) := by
      rw [hf]; simp [List.count_append, List.count_cons]
    have e3 : ticks (extra + 2) h st = ticks (extra + 1) h (projectTick h st) := by
      rw [← htick]; rfl
    rw [e3]
    exact ⟨by rw [r3, c1], by rw [r4, c2], r6, r7⟩
  · intro ht
    have htick : tick h st = assemblyTick h st := by simp [tick, ht]
    have hf := assemblyTick_failure h st e tl hnet
    have ht1 : (assemblyTick h st).timers.lookup h = some .assembly := by rw [hf]; exact ht
    refine ⟨htick ▸ hf, htick ▸ ht1, ?_⟩
    intro ok done detail rest extra htl hdone
    have hn1 : (assemblyTick h st).net = pollScript [] ok done detail rest := by
      rw [hf]; simp [pollScript, htl]
    obtain ⟨_, _, r3, r4, _, r6, r7⟩ :=
      assembly_run h ok done detail rest extra hdone [] (assemblyTick h st) ht1 (by simp) hn1
    have e2 : ([] : List (Bool × Body)).length + 1 + extra = extra + 1 := by simp; omega
    rw [e2] at r3 r4 r6 r7
    have hlog := poll_error_ne2 e.message
    have c1 : (assemblyTick h st).trace.count (.addLog "组装项目处理完成！" "info")
        = st.trace.count (.addLog "组装项目处理完成！" "info") := by
      rw [hf]; simp [List.count_append, List.count_cons, hlog]
    have c2 : (assemblyTick h st).trace.count (.showStep 3) = st.trace.count (.showStep 3) := by
      rw [hf]; simp [List.count_append, List.count_cons]
    have e3 : ticks (extra + 2) h st = ticks (extra + 1) h (assemblyTick h st) := by
      rw [← htick]; rfl
    rw [e3]
    exact ⟨by rw [r3, c1], by rw [r4, c2], r6, r7⟩
  · intro v t ht
    have htick : tick h st = adjustmentTick h v t st := by simp [tick, ht]
    have hf := adjustmentTick_failure h v t st e tl hnet
    obtain ⟨a1, a2, _, _, a5, _, a7⟩ := adjustFailed_frame t e (clearInterval h { st with
        net := tl,
        trace := st.trace
          ++ [.fetch (.projectStatus (deriveNext st.currentJobId v)) "GET" .empty] })
    obtain ⟨k1, k2, _, _, k5⟩ := clearInterval_frame h { st with
        net := tl,
        trace := st.trace
          ++ [.fetch (.projectStatus (deriveNext st.currentJobId v)) "GET" .empty] }
    have hl : (tick h st).timers.lookup h = none := by rw [htick, hf, a1]; exact k1
    have hnet' : (tick h st).net = tl := by rw [htick, hf, a2, k2]
    refine ⟨htick ▸ hf, ?_, ?_, hl, ?_⟩
    · rw [htick, hf]; exact a7 _ k5
    · rw [htick, hf]; exact a5
    · intro n
      have : ticks (n + 1) h st = tick h st := by
        show ticks n h (tick h st) = tick h st
        exact ticks_inactive n h _ hl
      exact ⟨this, by rw [this]; exact hnet'⟩
  · intro x ht
    have htick : tick h st = exportTick h x st := by simp [tick, ht]
    have hf := exportTick_failure h x st e tl hnet
    obtain ⟨a1, a2, _, _, a5, _, a7⟩ := exportFailed_frame e (clearInterval h { st with
        net := tl,
        trace := st.trace ++ [.fetch (.exportStatus x.toStr) "GET" .empty] })
    obtain ⟨k1, k2, _, _, k5⟩ := clearInterval_frame h { st with
        net := tl,
        trace := st.trace ++ [.fetch (.exportStatus x.toStr) "GET" .empty] }
    have hl : (tick h st).timers.lookup h = none := by rw [htick, hf, a1]; exact k1
    have hnet' : (tick h st).net = tl := by rw [htick, hf, a2, k2]
    refine ⟨htick ▸ hf, ?_, ?_, hl, ?_⟩
    · rw [htick, hf]; exact a7 _ k5
    · rw [htick, hf]; exact a5
    · intro n
      have : ticks (n + 1) h st = tick h st := by
        show ticks n h (tick h st) = tick h st
        exact ticks_inactive n h _ hl
      exact ⟨this, by rw [this]; exact hnet'⟩

/-- Witness for C5 (as amended): project polling survives a failed query and
completes on the next response. -/
theorem poll_query_failure_witness :
    (ticks 2 1 glitchP1).trace.count (.addLog "项目处理完成！" "info") = 1 ∧
    (ticks 2 1 glitchP1).trace.count (.showStep 3) = 1 ∧
    (ticks 2 1 glitchP1).timers.lookup 1 = none ∧
    (ticks 2 1 glitchP1).net = [] :=
  ((poll_query_failure 1 ⟨"TypeError", "Failed to fetch"⟩
    [.response true { status := .str "completed", progress := .num 100 }, .response true {}]
    glitchP1 rfl).1 rfl).2.2 true { status := .str "completed", progress := .num 100 }
    (.response true {}) [] 0 rfl rfl

/-- Counterexample to C5 as stated: in export polling one failed status query
cancels the timer and is reported as an export failure; the `completed`
answer that would have followed is never requested and the success
continuation of `exportVideo` never runs. -/
theorem export_poll_aborts_on_query_failure :
    (tick 1 exportingE1).timers.lookup 1 = none ∧
    .alert "导出失败: Failed to fetch" ∈ (ticks 2 1 exportingE1).trace ∧
    .addLog "导出完成！" "info" ∉ (ticks 2 1 exportingE1).trace ∧
    statusQueries (ticks 2 1 exportingE1).trace = [.exportStatus "e1"] ∧
    (ticks 2 1 exportingE1).net
      = [.response true { status := .str "completed", progress := .num 100 }] := by
  decide
/-! ## Terminal job failure -/

theorem fail_frame (msg a : String) (h : Nat) (st : St) :
    (emit (.alert a) (stopTimer (addLog msg "error" (clearInterval h st)))).net = st.net ∧
    (emit (.alert a) (stopTimer (addLog msg "error" (clearInterval h st)))).timers.lookup h
      = none ∧
    statusQueries (emit (.alert a) (stopTimer (addLog msg "error" (clearInterval h st)))).trace
      = statusQueries st.trace ∧
    .clearInterval h ∈
      (emit (.alert a) (stopTimer (addLog msg "error" (clearInterval h st)))).trace ∧
    .addLog msg "error" ∈
      (emit (.alert a) (stopTimer (addLog msg "error" (clearInterval h st)))).trace ∧
    .alert a ∈ (emit (.alert a) (stopTimer (addLog msg "error" (clearInterval h st)))).trace := by
  cases hp : st.processingInterval with
  | none =>
    simp [stopTimer, addLog, clearInterval, emit, hp, statusQueries_append, statusQueries,
      lookup_filter_ne]
  | some x =>
    simp [stopTimer, addLog, clearInterval, emit, hp, statusQueries_append, statusQueries,
      lookup_filter_ne]

theorem projectTick_error (h : Nat) (st : St) (ok : Bool) (b : Body) (tl : List NetResult)
    (hnet : st.net = .response ok b :: tl) (he : b.status = .str "error") :
    (projectTick h st).net = tl ∧ (projectTick h st).timers.lookup h = none ∧
    statusQueries (projectTick h st).trace
      = statusQueries st.trace ++ [.projectStatus st.currentJobId.toStr] ∧
    .clearInterval h ∈ (projectTick h st).trace ∧
    .addLog ("错误: " ++ b.failureText "处理失败") "error" ∈ (projectTick h st).trace ∧
    .alert "处理失败，请重试" ∈ (projectTick h st).trace := by
  have hreq := request_response (.projectStatus st.currentJobId.toStr) "GET" .empty st _ tl hnet
  obtain ⟨f1, _, _, _, f5, _⟩ := projectReport_frame b
    { st with net := tl,
              trace := st.trace ++ [.fetch (.projectStatus st.currentJobId.toStr) "GET" .empty] }
  obtain ⟨g1, g2, g3, g4, g5, g6⟩ := fail_frame ("错误: " ++ b.failureText "处理失败")
    "处理失败，请重试" h (projectReport b { st with
      net := tl,
      trace := st.trace ++ [.fetch (.projectStatus st.currentJobId.toStr) "GET" .empty] })
  have hne : ¬ (JsVal.str "error" = JsVal.str "completed") := by decide
  simp only [projectTick, hreq, he, hne, if_false, if_true]
  refine ⟨by rw [g1, f1], g2, ?_, g4, g5, g6⟩
  rw [g3, f5]; simp [statusQueries_append, statusQueries, Endpoint.isStatus]

theorem assemblyTick_error (h : Nat) (st : St) (ok : Bool) (b : Body) (tl : List NetResult)
    (hnet : st.net = .response ok b :: tl) (he : b.status = .str "error") :
    (assemblyTick h st).net = tl ∧ (assemblyTick h st).timers.lookup h = none ∧
    statusQueries (assemblyTick h st).trace
      = statusQueries st.trace ++ [.assemblyStatus st.currentJobId.toStr] ∧
    .clearInterval h ∈ (assemblyTick h st).trace ∧
    .addLog ("错误: " ++ b.failureText "处理失败") "error" ∈ (assemblyTick h st).trace ∧
    .alert "处理失败，请重试" ∈ (assemblyTick h st).trace := by
  have hreq := request_response (.assemblyStatus st.currentJobId.toStr) "GET" .empty st _ tl hnet
  obtain ⟨f1, _, _, _, f5, _⟩ := assemblyReport_frame b
    { st with net := tl,
              trace := st.trace ++ [.fetch (.assemblyStatus st.currentJobId.toStr) "GET" .empty] }
  obtain ⟨g1, g2, g3, g4, g5, g6⟩ := fail_frame ("错误: " ++ b.failureText "处理失败")
    "处理失败，请重试" h (assemblyReport b { st with
      net := tl,
      trace := st.trace ++ [.fetch (.assemblyStatus st.currentJobId.toStr) "GET" .empty] })
  have hne : ¬ (JsVal.str "error" = JsVal.str "completed") := by decide
  simp only [assemblyTick, hreq, he, hne, if_false, if_true]
  refine ⟨by rw [g1, f1], g2, ?_, g4, g5, g6⟩
  rw [g3, f5]; simp [statusQueries_append, statusQueries, Endpoint.isStatus]

theorem adjustmentTick_error (h : Nat) (v : JsVal) (t : String) (st : St) (ok : Bool)
    (b : Body) (tl : List NetResult) (hnet : st.net = .response ok b :: tl)
    (he : b.status = .str "error") :
    adjustmentTick h v t st = adjustFailed t (mkError (b.failureText "调整失败"))
      (clearInterval h { st with
        net := tl,
        trace := st.trace ++ [.fetch (.projectStatus (deriveNext st.currentJobId v)) "GET" .empty,
          .addLog ("调整进度: " ++ b.progress.toStr ++ "%") "info"] }) := by
  have hreq := request_response (.projectStatus (deriveNext st.currentJobId v)) "GET" .empty st
    _ tl hnet
  have hne : ¬ (JsVal.str "error" = JsVal.str "completed") := by decide
  simp [adjustmentTick, hreq, he, hne, addLog, emit]

theorem exportTick_error (h : Nat) (x : JsVal) (st : St) (ok : Bool)
    (b : Body) (tl : List NetResult) (hnet : st.net = .response ok b :: tl)
    (he : b.status = .str "error") :
    exportTick h x st = exportFailed (mkError (b.failureText "导出失败"))
      (clearInterval h { st with
        net := tl,
        trace := st.trace ++ [.fetch (.exportStatus x.toStr) "GET" .empty,
          .addLog ("导出进度: " ++ b.progress.toStr ++ "%") "info"] }) := by
  have hreq := request_response (.exportStatus x.toStr) "GET" .empty st _ tl hnet
  have hne : ¬ (JsVal.str "error" = JsVal.str "completed") := by decide
  simp [exportTick, hreq, he, hne, addLog, emit]

theorem failureText_given (b : Body) (m fallback : String) (hm : m ≠ "")
    (herr : b.error = .str m) : b.failureText fallback = m := by
  simp [Body.failureText, JsVal.orElse, JsVal.truthy, JsVal.toStr, herr, hm]

theorem failureText_default (b : Body) (fallback : String)
    (herr : b.error = .undefined ∨ b.error = .null ∨ b.error = .str "") :
    b.failureText fallback = fallback := by
  rcases herr with h | h | h <;>
    simp [Body.failureText, JsVal.orElse, JsVal.truthy, JsVal.toStr, h]

/-- C6: when a status response has status `error`, every polling loop cancels
its timer and never queries again (later firings of the cancelled timer do
nothing, the remaining answers stay unread). Project and assembly polling
write the error log entry `错误: ` followed by the reported text; adjustment
and export polling reject with an `Error` whose message is the reported text,
which `adjustIntent` / `exportVideo` log and alert. The reported text is
exactly the response's `error` string when that is non-empty, and the loop's
fixed default when the field is absent, `null` or empty. -/
theorem terminal_failure_stops (h : Nat) (ok : Bool) (b : Body) (tl : List NetResult) (st : St)
    (he : b.status = .str "error") (hnet : st.net = .response ok b :: tl) :
    (st.timers.lookup h = some .project →
      (tick h st).timers.lookup h = none ∧ .clearInterval h ∈ (tick h st).trace ∧
      .addLog ("错误: " ++ b.failureText "处理失败") "error" ∈ (tick h st).trace ∧
      statusQueries (tick h st).trace
        = statusQueries st.trace ++ [.projectStatus st.currentJobId.toStr] ∧
      (tick h st).net = tl ∧ ∀ n, ticks n h (tick h st) = tick h st) ∧
    (st.timers.lookup h = some .assembly →
      (tick h st).timers.lookup h = none ∧ .clearInterval h ∈ (tick h st).trace ∧
      .addLog ("错误: " ++ b.failureText "处理失败") "error" ∈ (tick h st).trace ∧
      statusQueries (tick h st).trace
        = statusQueries st.trace ++ [.assemblyStatus st.currentJobId.toStr] ∧
      (tick h st).net = tl ∧ ∀ n, ticks n h (tick h st) = tick h st) ∧
    (∀ v t, st.timers.lookup h = some (.adjustment v t) →
      (tick h st).timers.lookup h = none ∧ .clearInterval h ∈ (tick h st).trace ∧
      tick h st = adjustFailed t (mkError (b.failureText "调整失败"))
        (clearInterval h { st with
          net := tl,
          trace := st.trace
            ++ [.fetch (.projectStatus (deriveNext st.currentJobId v)) "GET" .empty,
              .addLog ("调整进度: " ++ b.progress.toStr ++ "%") "info"] }) ∧
      .alert ("调整失败: " ++ b.failureText "调整失败") ∈ (tick h st).trace ∧
      statusQueries (tick h st).trace
        = statusQueries st.trace ++ [.projectStatus (deriveNext st.currentJobId v)] ∧
      (tick h st).net = tl ∧ ∀ n, ticks n h (tick h st) = tick h st) ∧
    (∀ x, st.timers.lookup h = some (.exportTask x) →
      (tick h st).timers.lookup h = none ∧ .clearInterval h ∈ (tick h st).trace ∧
      tick h st = exportFailed (mkError (b.failureText "导出失败"))
        (clearInterval h { st with
          net := tl,
          trace := st.trace ++ [.fetch (.exportStatus x.toStr) "GET" .empty,
            .addLog ("导出进度: " ++ b.progress.toStr ++ "%") "info"] }) ∧
      .alert ("导出失败: " ++ b.failureText "导出失败") ∈ (tick h st).trace ∧
      statusQueries (tick h st).trace = statusQueries st.trace ++ [.exportStatus x.toStr] ∧
      (tick h st).net = tl ∧ ∀ n, ticks n h (tick h st) = tick h st) ∧
    (∀ m fallback, m ≠ "" → b.error = .str m → b.failureText fallback = m) ∧
    (∀ fallback, b.error = .undefined ∨ b.error = .null ∨ b.error = .str "" →
      b.failureText fallback = fallback) := by
  refine ⟨?_, ?_, ?_, ?_, fun m fallback hm herr => failureText_given b m fallback hm herr,
    fun fallback herr => failureText_default b fallback herr⟩
  · intro ht
    have htick : tick h st = projectTick h st := by simp [tick, ht]
    obtain ⟨p1, p2, p3, p4, p5, _⟩ := projectTick_error h st ok b tl hnet he
    rw [htick]
    exact ⟨p2, p4, p5, p3, p1, fun n => ticks_inactive n h _ p2⟩
  · intro ht
    have htick : tick h st = assemblyTick h st := by simp [tick, ht]
    obtain ⟨p1, p2, p3, p4, p5, _⟩ := assemblyTick_error h st ok b tl hnet he
    rw [htick]
    exact ⟨p2, p4, p5, p3, p1, fun n => ticks_inactive n h _ p2⟩
  · intro v t ht
    have htick : tick h st = adjustmentTick h v t st := by simp [tick, ht]
    have hf := adjustmentTick_error h v t st ok b tl hnet he
    obtain ⟨a1, a2, _, a4, a5, _, a7⟩ := adjustFailed_frame t (mkError (b.failureText "调整失败"))
      (clearInterval h { st with
        net := tl,
        trace := st.trace
          ++ [.fetch (.projectStatus (deriveNext st.currentJobId v)) "GET" .empty,
            .addLog ("调整进度: " ++ b.progress.toStr ++ "%") "info"] })
    obtain ⟨k1, k2, _, k4, k5⟩ := clearInterval_frame h { st with
        net := tl,
        trace := st.trace
          ++ [.fetch (.projectStatus (deriveNext st.currentJobId v)) "GET" .empty,
            .addLog ("调整进度: " ++ b.progress.toStr ++ "%") "info"] }
    have hl : (tick h st).timers.lookup h = none := by rw [htick, hf, a1]; exact k1
    refine ⟨hl, ?_, htick ▸ hf, ?_, ?_, ?_, fun n => ticks_inactive n h _ hl⟩
    · rw [htick, hf]; exact a7 _ k5
    · rw [htick, hf]; exact a5
    · rw [htick, hf, a4, k4]; simp [statusQueries_append, statusQueries, Endpoint.isStatus]
    · rw [htick, hf, a2, k2]
  · intro x ht
    have htick : tick h st = exportTick h x st := by simp [tick, ht]
    have hf := exportTick_error h x st ok b tl hnet he
    obtain ⟨a1, a2, _, a4, a5, _, a7⟩ := exportFailed_frame (mkError (b.failureText "导出失败"))
      (clearInterval h { st with
        net := tl,
        trace := st.trace ++ [.fetch (.exportStatus x.toStr) "GET" .empty,
          .addLog ("导出进度: " ++ b.progress.toStr ++ "%") "info"] })
    obtain ⟨k1, k2, _, k4, k5⟩ := clearInterval_frame h { st with
        net := tl,
        trace := st.trace ++ [.fetch (.exportStatus x.toStr) "GET" .empty,
          .addLog ("导出进度: " ++ b.progress.toStr ++ "%") "info"] }
    have hl : (tick h st).timers.lookup h = none := by rw [htick, hf, a1]; exact k1
    refine ⟨hl, ?_, htick ▸ hf, ?_, ?_, ?_, fun n => ticks_inactive n h _ hl⟩
    · rw [htick, hf]; exact a7 _ k5
    · rw [htick, hf]; exact a5
    · rw [htick, hf, a4, k4]; simp [statusQueries_append, statusQueries, Endpoint.isStatus]
    · rw [htick, hf, a2, k2]

/-- Witness for C6: the poll of `p1` is answered with status `error` and
error `decode failed`: the entry `错误: decode failed` is logged, the timer is
cancelled, one status query was made, and the answer still available is
never requested. -/
theorem terminal_failure_stops_witness :
    (tick 1 failingP1).timers.lookup 1 = none ∧
    .clearInterval 1 ∈ (tick 1 failingP1).trace ∧
    .addLog "错误: decode failed" "error" ∈ (tick 1 failingP1).trace ∧
    statusQueries (tick 1 failingP1).trace = [.projectStatus "p1"] ∧
    (tick 1 failingP1).net = [.response true { status := .str "completed" }] ∧
    ∀ n, ticks n 1 (tick 1 failingP1) = tick 1 failingP1 :=
  (terminal_failure_stops 1 true { status := .str "error", error := .str "decode failed" }
    [.response true { status := .str "completed" }] failingP1 rfl rfl).1 rfl
/-! ## One-shot operations -/

theorem sleeps_append (a b : List Effect) : sleeps (a ++ b) = sleeps a ++ sleeps b := by
  induction a with
  | nil => rfl
  | cons e es ih => cases e <;> simp [sleeps, ih]

theorem createFailed_frame (label : String) (e : JsError) (st : St) :
    (createFailed label e st).timers = st.timers ∧ (createFailed label e st).net = st.net ∧
    (createFailed label e st).currentJobId = st.currentJobId ∧
    requests (createFailed label e st).trace = requests st.trace ∧
    sleeps (createFailed label e st).trace = sleeps st.trace ∧
    .alert (label ++ e.message) ∈ (createFailed label e st).trace := by
  simp [createFailed, updateTimeline, addLog, emit, requests_append, requests, sleeps_append,
    sleeps]

/-- C10 (as amended): each one-shot operation issues its network call exactly
once; when that call fails in transit the failure is surfaced at once, by an
error log entry and an alert carrying the error message (`createProject` also
marks the first timeline step as failed), with no backoff sleep and no second
attempt: the next answer of the network stays unread, no job id is taken and
no poll is started. -/
theorem one_shot_not_retried (e : JsError) (tl : List NetResult) (st : St)
    (hnet : st.net = .failure e :: tl) :
    (∀ platform style file, st.currentWorkflow = "single_video" →
      st.selectedFile = some file →
      requests (createProject platform style st).1.trace
        = requests st.trace ++ [.createProject] ∧
      sleeps (createProject platform style st).1.trace = sleeps st.trace ∧
      .alert ("创建项目失败: " ++ e.message) ∈ (createProject platform style st).1.trace ∧
      .addLog ("错误: " ++ e.message) "error" ∈ (createProject platform style st).1.trace ∧
      .updateTimeline 1 "error" "失败" ∈ (createProject platform style st).1.trace ∧
      (createProject platform style st).1.net = tl ∧
      (createProject platform style st).1.currentJobId = st.currentJobId ∧
      (createProject platform style st).1.timers = st.timers ∧
      (createProject platform style st).2 = .returned) ∧
    (∀ platform style manifest, st.currentWorkflow ≠ "single_video" →
      st.manifestFile = some manifest →
      requests (createProject platform style st).1.trace
        = requests st.trace ++ [.createAssembly] ∧
      sleeps (createProject platform style st).1.trace = sleeps st.trace ∧
      .alert ("创建组装项目失败: " ++ e.message) ∈ (createProject platform style st).1.trace ∧
      .addLog ("错误: " ++ e.message) "error" ∈ (createProject platform style st).1.trace ∧
      .updateTimeline 1 "error" "失败" ∈ (createProject platform style st).1.trace ∧
      (createProject platform style st).1.net = tl ∧
      (createProject platform style st).1.currentJobId = st.currentJobId ∧
      (createProject platform style st).1.timers = st.timers ∧
      (createProject platform style st).2 = .returned) ∧
    (∀ intentType action originalText,
      requests (adjustIntent intentType action originalText st).trace
        = requests st.trace ++ [.adjust st.currentJobId.toStr] ∧
      sleeps (adjustIntent intentType action originalText st).trace = sleeps st.trace ∧
      .alert ("调整失败: " ++ e.message) ∈ (adjustIntent intentType action originalText st).trace ∧
      .addLog ("调整失败: " ++ e.message) "error" ∈
        (adjustIntent intentType action originalText st).trace ∧
      (adjustIntent intentType action originalText st).net = tl ∧
      (adjustIntent intentType action originalText st).currentJobId = st.currentJobId ∧
      (adjustIntent intentType action originalText st).timers = st.timers) ∧
    (∀ quality id, st.currentJobId = .str id →
      requests (exportVideo quality st).trace = requests st.trace ++ [.exports] ∧
      sleeps (exportVideo quality st).trace = sleeps st.trace ∧
      .alert ("导出失败: " ++ e.message) ∈ (exportVideo quality st).trace ∧
      .addLog ("导出失败: " ++ e.message) "error" ∈ (exportVideo quality st).trace ∧
      (exportVideo quality st).net = tl ∧
      (exportVideo quality st).timers = st.timers) := by
  refine ⟨?_, ?_, ?_, ?_⟩
  · intro platform style file hw hf
    have hreq := request_response .createProject "POST"
      (.form (("video", file.name) :: optionFields platform style))
      (addLog "开始创建项目..." "info" st) _ tl (by simpa [addLog, emit] using hnet)
    simp [createProject, addLog, emit, hw, hf] at hreq ⊢
    simp [hreq, createFailed, updateTimeline, addLog, emit, requests_append, requests,
      sleeps_append, sleeps]
  · intro platform style manifest hw hm
    cases hs : st.scriptFile with
    | none =>
      have hreq := request_response .createAssembly "POST"
        (.form (("assets_manifest", manifest.name) :: ([] ++ optionFields platform style)))
        (addLog "开始创建项目..." "info" st) _ tl (by simpa [addLog, emit] using hnet)
      simp [createProject, addLog, emit, hw, hm, hs] at hreq ⊢
      simp [hreq, createFailed, updateTimeline, addLog, emit, requests_append, requests,
        sleeps_append, sleeps]
    | some f =>
      have hreq := request_response .createAssembly "POST"
        (.form (("assets_manifest", manifest.name) ::
          ([("script_outline", f.name)] ++ optionFields platform style)))
        (addLog "开始创建项目..." "info" st) _ tl (by simpa [addLog, emit] using hnet)
      simp [createProject, addLog, emit, hw, hm, hs] at hreq ⊢
      simp [hreq, createFailed, updateTimeline, addLog, emit, requests_append, requests,
        sleeps_append, sleeps]
  · intro intentType action originalText
    have hreq := request_response (.adjust st.currentJobId.toStr) "POST"
      (.adjustments (setProp intentType action
        [("pace", "keep"), ("hook", "keep"), ("music", "keep"), ("subtitle", "keep")]))
      (emit (.dom "btn" "textContent" "处理中...")
        (emit (.dom "btn" "disabled" "true")
          (addLog ("用户调整: " ++ intentType ++ " - " ++ action) "info" st)))
      _ tl (by simpa [addLog, emit] using hnet)
    simp [adjustIntent, addLog, emit] at hreq ⊢
    simp [hreq, adjustFailed, addLog, emit, requests_append, requests, sleeps_append, sleeps]
  · intro quality id hid
    have hreq := request_response .exports "POST" (.exportTask (baseOf id) quality)
      (addLog ("开始导出: " ++ quality) "info" st) _ tl (by simpa [addLog, emit] using hnet)
    simp [exportVideo, addLog, emit, hid] at hreq ⊢
    simp [hreq, exportFailed, addLog, emit, requests_append, requests, sleeps_append, sleeps]

/-- Witness for C10 (as amended): the creation request of `flakyCreate` fails
once; exactly one request is made and the failure is alerted. -/
theorem one_shot_not_retried_witness :
    requests (createProject "douyin" "vlog" flakyCreate).1.trace = [.createProject] ∧
    sleeps (createProject "douyin" "vlog" flakyCreate).1.trace = [] ∧
    .alert "创建项目失败: Failed to fetch" ∈ (createProject "douyin" "vlog" flakyCreate).1.trace ∧
    .addLog "错误: Failed to fetch" "error" ∈ (createProject "douyin" "vlog" flakyCreate).1.trace ∧
    .updateTimeline 1 "error" "失败" ∈ (createProject "douyin" "vlog" flakyCreate).1.trace ∧
    (createProject "douyin" "vlog" flakyCreate).1.net
      = [.response true { project_id := .str "p1" }] ∧
    (createProject "douyin" "vlog" flakyCreate).1.currentJobId = .null ∧
    (createProject "douyin" "vlog" flakyCreate).1.timers = [] ∧
    (createProject "douyin" "vlog" flakyCreate).2 = .returned :=
  (one_shot_not_retried ⟨"TypeError", "Failed to fetch"⟩
    [.response true { project_id := .str "p1" }] flakyCreate rfl).1
    "douyin" "vlog" (File.mk "a.mp4" "video/mp4" 1024) rfl rfl

/-- Counterexample to C10 as stated: one transport failure followed by an
answer that would have been successful does not make `createProject`
succeed: a single request is issued, the error is alerted, the second answer
is never requested, no job id is stored and no polling starts. -/
theorem createProject_gives_up_after_one_failure :
    requests (createProject "douyin" "vlog" flakyCreate).1.trace = [.createProject] ∧
    .alert "创建项目失败: Failed to fetch" ∈ (createProject "douyin" "vlog" flakyCreate).1.trace ∧
    (createProject "douyin" "vlog" flakyCreate).1.net
      = [.response true { project_id := .str "p1" }] ∧
    (createProject "douyin" "vlog" flakyCreate).1.currentJobId ≠ .str "p1" ∧
    (createProject "douyin" "vlog" flakyCreate).1.timers = [] := by
  decide
/-! ## Adjustment rounds and the active identifier -/

theorem lookup_append_fresh (h : Nat) (p : Poller) (l : List (Nat × Poller))
    (hl : ∀ t ∈ l, t.1 < h) : (l ++ [(h, p)]).lookup h = some p := by
  induction l with
  | nil => simp [List.lookup]
  | cons t l ih =>
    obtain ⟨k, q⟩ := t
    have hk : k < h := hl (k, q) (List.mem_cons_self _ _)
    have hb : (h == k) = false := by simpa using (Nat.ne_of_gt hk)
    simp only [List.cons_append, List.lookup, hb]
    exact ih (fun t ht => hl t (List.mem_cons_of_mem _ ht))

theorem adjustIntent_accepted (intentType action t : String) (st : St) (result : Body)
    (tl : List NetResult) (hnet : st.net = .response true result :: tl) :
    (adjustIntent intentType action t st).timers
      = st.timers ++ [(st.nextHandle, .adjustment result.new_version t)] ∧
    (adjustIntent intentType action t st).nextHandle = st.nextHandle + 1 ∧
    (adjustIntent intentType action t st).net = tl ∧
    (adjustIntent intentType action t st).currentJobId = st.currentJobId := by
  have hreq := request_response (.adjust st.currentJobId.toStr) "POST"
    (.adjustments (setProp intentType action
      [("pace", "keep"), ("hook", "keep"), ("music", "keep"), ("subtitle", "keep")]))
    (emit (.dom "btn" "textContent" "处理中...")
      (emit (.dom "btn" "disabled" "true")
        (addLog ("用户调整: " ++ intentType ++ " - " ++ action) "info" st)))
    _ tl (by simpa [addLog, emit] using hnet)
  simp [adjustIntent, addLog, emit] at hreq ⊢
  simp [hreq, pollAdjustmentProgress, startPoll, addLog, emit]

theorem adjustmentTick_waiting (h : Nat) (v : JsVal) (t : String) (st : St) (ok : Bool)
    (b : Body) (tl : List NetResult) (hnet : st.net = .response ok b :: tl)
    (h1 : b.status ≠ .str "completed") (h2 : b.status ≠ .str "error") :
    (adjustmentTick h v t st).net = tl ∧ (adjustmentTick h v t st).timers = st.timers ∧
    (adjustmentTick h v t st).currentJobId = st.currentJobId ∧
    (adjustmentTick h v t st).nextHandle = st.nextHandle := by
  have hreq := request_response (.projectStatus (deriveNext st.currentJobId v)) "GET" .empty st
    _ tl hnet
  simp [adjustmentTick, hreq, h1, h2, addLog, emit]

theorem adjustmentTick_completed (h : Nat) (v : JsVal) (t : String) (st : St) (ok : Bool)
    (b : Body) (detail : NetResult) (tl : List NetResult)
    (hnet : st.net = .response ok b :: detail :: tl) (hc : b.status = .str "completed") :
    (adjustmentTick h v t st).net = tl ∧
    (adjustmentTick h v t st).timers = st.timers.filter (fun x => x.1 != h) ∧
    (adjustmentTick h v t st).currentJobId = .str (deriveNext st.currentJobId v) ∧
    (adjustmentTick h v t st).nextHandle = st.nextHandle + 1 := by
  have hreq := request_response (.projectStatus (deriveNext st.currentJobId v)) "GET" .empty st
    _ _ hnet
  obtain ⟨s1, s2, s3, s4, s5, _⟩ := showPreview_settles
    { addLog "调整完成，刷新预览..." "info" (clearInterval h
        (addLog ("调整进度: " ++ b.progress.toStr ++ "%") "info" { st with
          net := detail :: tl,
          trace := st.trace
            ++ [.fetch (.projectStatus (deriveNext st.currentJobId v)) "GET" .empty] }))
      with currentJobId := .str (deriveNext st.currentJobId v) } detail tl
    (by simp [addLog, clearInterval, emit])
  have hpair : ∀ (p : St × Bool), p.2 = true →
      (match p with
        | (st4, true) => adjustResolved st4
        | (st4, false) => st4) = adjustResolved p.1 := by
    intro p hp
    obtain ⟨a, b⟩ := p
    simp only at hp
    subst hp
    rfl
  simp only [adjustmentTick, hreq, hc, if_true]
  rw [hpair _ s1]
  refine ⟨?_, ?_, ?_, ?_⟩
  · simp only [adjustResolved, emit]; exact s2
  · simp only [adjustResolved, emit]; rw [s3]; simp [addLog, clearInterval, emit]
  · simp only [adjustResolved, emit]; rw [s4]
  · simp only [adjustResolved, emit]; rw [s5]; simp [addLog, clearInterval, emit]

theorem adjustment_run (h : Nat) (v : JsVal) (t : String) (ok : Bool) (done : Body)
    (detail : NetResult) (rest : List NetResult) (hdone : done.status = .str "completed")
    (pre : List (Bool × Body)) : ∀ (st : St),
    st.timers.lookup h = some (.adjustment v t) →
    (∀ r ∈ pre, r.2.status ≠ .str "completed" ∧ r.2.status ≠ .str "error") →
    st.net = pollScript pre ok done detail rest →
    (ticks (pre.length + 1) h st).currentJobId = .str (deriveNext st.currentJobId v) ∧
    (ticks (pre.length + 1) h st).net = rest ∧
    (ticks (pre.length + 1) h st).timers = st.timers.filter (fun x => x.1 != h) ∧
    (ticks (pre.length + 1) h st).nextHandle = st.nextHandle + 1 := by
  induction pre with
  | nil =>
    intro st ht _ hnet
    have htick : tick h st = adjustmentTick h v t st := by simp [tick, ht]
    obtain ⟨c1, c2, c3, c4⟩ := adjustmentTick_completed h v t st ok done detail rest
      (by simpa [pollScript] using hnet) hdone
    have e : ticks (([] : List (Bool × Body)).length + 1) h st = adjustmentTick h v t st := by
      rw [← htick]; rfl
    rw [e]
    exact ⟨c3, c1, c2, c4⟩
  | cons r pre ih =>
    intro st ht hpre hnet
    have htick : tick h st = adjustmentTick h v t st := by simp [tick, ht]
    have hr := hpre r (List.mem_cons_self _ _)
    obtain ⟨w1, w2, w3, w4⟩ := adjustmentTick_waiting h v t st r.1 r.2
      (pollScript pre ok done detail rest) (by simpa [pollScript] using hnet) hr.1 hr.2
    obtain ⟨i1, i2, i3, i4⟩ := ih (adjustmentTick h v t st) (by rw [w2]; exact ht)
      (fun x hx => hpre x (List.mem_cons_of_mem _ hx)) w1
    have e : ticks ((r :: pre).length + 1) h st
        = ticks (pre.length + 1) h (adjustmentTick h v t st) := by
      rw [← htick]; rfl
    rw [e]
    exact ⟨by rw [i1, w3], i2, by rw [i3, w2], by rw [i4, w4]⟩

theorem round_run (r : Round) (rest : List NetResult) (st : St) (hr : r.completes)
    (hfresh : ∀ t ∈ st.timers, t.1 < st.nextHandle) (hnet : st.net = r.script rest) :
    (r.run st).currentJobId = .str (deriveNext st.currentJobId r.result.new_version) ∧
    (r.run st).net = rest ∧
    (∀ t ∈ (r.run st).timers, t.1 < (r.run st).nextHandle) := by
  obtain ⟨a1, a2, a3, a4⟩ := adjustIntent_accepted r.intentType r.action r.originalText st
    r.result (pollScript r.waiting r.ok r.done r.detail rest) hnet
  have hl : (adjustIntent r.intentType r.action r.originalText st).timers.lookup st.nextHandle
      = some (.adjustment r.result.new_version r.originalText) := by
    rw [a1]; exact lookup_append_fresh _ _ _ hfresh
  obtain ⟨b1, b2, b3, b4⟩ := adjustment_run st.nextHandle r.result.new_version r.originalText
    r.ok r.done r.detail rest hr.2 r.waiting _ hl hr.1 a3
  refine ⟨by simp only [Round.run]; rw [b1, a4], b2, ?_⟩
  intro t ht
  simp only [Round.run] at ht ⊢
  rw [b3, a1] at ht
  rw [b4, a2]
  have hmem := (List.mem_filter.1 ht).1
  rcases List.mem_append.1 hmem with hm | hm
  · have := hfresh t hm
    omega
  · have : t.1 = st.nextHandle := by
      rw [List.mem_singleton.1 hm]
    omega

/-- Adjustments made one after the other, each completed before the next
click: every round appends `_v` and its reported version to the identifier
that is active at that moment. (Timer handles issued so far lie below the
next free handle.) -/
theorem active_id_after_adjustments (rounds : List Round) : ∀ (rest : List NetResult) (st : St),
    (∀ r ∈ rounds, r.completes) →
    (∀ t ∈ st.timers, t.1 < st.nextHandle) →
    st.net = roundsScript rounds rest →
    (runRounds rounds st).currentJobId = chainId st.currentJobId rounds ∧
    (runRounds rounds st).net = rest := by
  induction rounds with
  | nil =>
    intro rest st _ _ hnet
    exact ⟨rfl, hnet⟩
  | cons r rounds ih =>
    intro rest st hall hfresh hnet
    obtain ⟨r1, r2, r3⟩ := round_run r (roundsScript rounds rest) st
      (hall r (List.mem_cons_self _ _)) hfresh hnet
    obtain ⟨i1, i2⟩ := ih rest (r.run st) (fun x hx => hall x (List.mem_cons_of_mem _ hx)) r3 r2
    exact ⟨by simp only [runRounds, chainId]; rw [i1, r1], i2⟩

/-- C2, evaluated at the failing input: on base `p1`, after two completed
adjustments with reported versions 1 and 2 the active identifier is
`p1_v1_v2` and not `p1_v2`: the second identifier was derived from the first
derived identifier, not from the base. -/
theorem versions_nest_after_two_adjustments :
    (runRounds [quickRound "hook" "regenerate" 1, quickRound "pace" "faster" 2]
      reviewingP1).currentJobId = .str "p1_v1_v2" ∧
    (runRounds [quickRound "hook" "regenerate" 1, quickRound "pace" "faster" 2]
      reviewingP1).currentJobId ≠ .str (deriveNext (.str "p1") (.num 2)) := by
  decide

/-- C3, evaluated at the failing input: on base `p1`, after two completed
adjustments (versions 1 and 2), `exportVideo` sends `project_id` `p1_v1`,
which is not the base `p1`; with at most one adjustment it sends `p1`. -/
theorem export_after_two_adjustments_targets_p1_v1 :
    requests (exportVideo "1080p"
      (runRounds [quickRound "hook" "regenerate" 1, quickRound "pace" "faster" 2]
        reviewingP1)).trace
      = [.adjust "p1", .projectStatus "p1_v1", .projectDetail "p1_v1", .adjust "p1_v1",
          .projectStatus "p1_v1_v2", .projectDetail "p1_v1_v2", .exports] ∧
    .fetch .exports "POST" (.exportTask "p1_v1" "1080p") ∈
      (exportVideo "1080p"
        (runRounds [quickRound "hook" "regenerate" 1, quickRound "pace" "faster" 2]
          reviewingP1)).trace ∧
    .fetch .exports "POST" (.exportTask "p1" "1080p") ∉
      (exportVideo "1080p"
        (runRounds [quickRound "hook" "regenerate" 1, quickRound "pace" "faster" 2]
          reviewingP1)).trace ∧
    .fetch .exports "POST" (.exportTask "p1" "1080p") ∈
      (exportVideo "1080p" (runRounds [quickRound "hook" "regenerate" 1] reviewingP1)).trace ∧
    .fetch .exports "POST" (.exportTask "p1" "1080p") ∈ (exportVideo "1080p" reviewingP1).trace
    := by
  decide
/-! ## The suffix strip, characterised -/

theorem matches_gives_suffix (cs : List Char) (h : matchesVersionSuffix cs = true) :
    ∃ d ds, cs = '_' :: 'v' :: d :: ds ∧ (d :: ds).all isDigitChar = true := by
  match cs, h with
  | a :: b :: d :: ds, h =>
    simp only [matchesVersionSuffix, Bool.and_eq_true, beq_iff_eq] at h
    obtain ⟨⟨ha, hb⟩, hall⟩ := h
    exact ⟨d, ds, by rw [ha, hb], hall⟩

theorem strip_without_suffix (cs : List Char)
    (h : ¬ ∃ p d ds, cs = p ++ '_' :: 'v' :: d :: ds ∧ (d :: ds).all isDigitChar = true) :
    stripVersionSuffix cs = cs := by
  induction cs with
  | nil => rfl
  | cons c cs ih =>
    have hm : matchesVersionSuffix (c :: cs) = false := by
      cases hmatch : matchesVersionSuffix (c :: cs) with
      | false => rfl
      | true =>
        obtain ⟨d, ds, he, hall⟩ := matches_gives_suffix _ hmatch
        exact absurd ⟨[], d, ds, by simpa using he, hall⟩ h
    have hcs : ¬ ∃ p d ds, cs = p ++ '_' :: 'v' :: d :: ds ∧ (d :: ds).all isDigitChar = true := by
      rintro ⟨p, d, ds, he, hall⟩
      exact h ⟨c :: p, d, ds, by simp [he], hall⟩
    show (if matchesVersionSuffix (c :: cs) = true then [] else c :: stripVersionSuffix cs)
      = c :: cs
    rw [hm, ih hcs]
    simp

/-- C12: the suffix strip of `exportVideo` returns an identifier that does not
end with `_v` and one or more digits unchanged; on an identifier of the form
`p + "_v" + digits` (digits non-empty, reaching the end) it returns exactly
`p`: the whole trailing digit run and the `_v` before it are removed and
nothing else. -/
theorem baseOf_characterisation (s : String) :
    (¬ hasVersionSuffix s → baseOf s = s) ∧
    (∀ p d ds, s.data = p ++ '_' :: 'v' :: d :: ds → (d :: ds).all isDigitChar = true →
      baseOf s = ⟨p⟩) := by
  refine ⟨fun h => ?_, fun p d ds hs hall => ?_⟩
  · have := strip_without_suffix s.data h
    simp only [baseOf, this]
  · simp only [baseOf, hs, strip_append_suffix p d ds hall]

/-! ## An empty attempt budget -/

/-- C13: with `maxRetries <= 0` the loop body of `retryWithBackoff` never
runs: `fn` is not invoked, nothing is slept or logged, and the call fails by
throwing `lastError`, which was never assigned (`undefined`). -/
theorem retryWithBackoff_no_budget {α : Type} (fn : Nat → Except JsError α) (maxRetries : Int)
    (initialDelay : Nat) (h : maxRetries ≤ 0) :
    retryWithBackoff fn maxRetries initialDelay = ([], .error none) := by
  have h0 : maxRetries.toNat = 0 := Int.toNat_eq_zero.2 h
  simp only [retryWithBackoff, h0, retryLoop]

/-- Witness for C13: a callback that would succeed is never invoked when
`maxRetries` is `-2`. -/
theorem retryWithBackoff_no_budget_witness :
    retryWithBackoff (fun _ => (Except.ok 1 : Except JsError Nat)) (-2) 1000
      = ([], .error none) :=
  retryWithBackoff_no_budget _ (-2) 1000 (by decide)

/-! ## Rejected files -/

theorem handleFileSelect_rejected (formatFileSize : Nat → String) (file : File) (st : St)
    (e : JsError) (hrej : validateFile file = .error e) :
    handleFileSelect formatFileSize file st = (st, .threw referenceError) := by
  simp [handleFileSelect, hrej, showError]

/-- C14, evaluated at the failing input: with `a.mp4` selected, choosing the
text file `notes.txt` is rejected by `validateFile`, `showError` throws
inside the `catch` block, the statement `selectedFile = null` is not reached,
and `handleFileSelect` fails with `a.mp4` still selected. -/
theorem rejected_file_leaves_previous_selection :
    validateFile notesTxt = .error (mkError "不支持的文件格式，请上传 MP4、MOV 或 AVI 格式") ∧
    (handleFileSelect (fun _ => "") notesTxt selectedA).2 = .threw referenceError ∧
    (handleFileSelect (fun _ => "") notesTxt selectedA).1.selectedFile
      = some (File.mk "a.mp4" "video/mp4" 1024) ∧
    (handleFileSelect (fun _ => "") notesTxt selectedA).1.selectedFile ≠ none :=
  ⟨by rfl, by decide, by decide, by decide⟩
/-! ## Which events schedule and cancel polling timers -/

theorem request_timers (ep : Endpoint) (method : String) (body : ReqBody) (st : St) :
    (request ep method body st).1.timers = st.timers ∧
    (request ep method body st).1.nextHandle = st.nextHandle := by
  unfold request
  cases h : st.net <;> simp [emit, h]

theorem stopTimer_timers (st : St) : (stopTimer st).timers = st.timers := by
  unfold stopTimer
  cases st.processingInterval <;> rfl

theorem showPreview_timers (st : St) : (showPreview st).1.timers = st.timers := by
  have hq := request_timers (.projectDetail (showStep 3 st).currentJobId.toStr) "GET" .empty
    (showStep 3 st)
  simp only [showPreview]
  rcases hreq : request (.projectDetail (showStep 3 st).currentJobId.toStr) "GET" .empty
    (showStep 3 st) with ⟨st1, r⟩
  rw [hreq] at hq
  have h1 : st1.timers = st.timers := by simpa [showStep, emit] using hq.1
  cases r with
  | none => exact h1
  | some nr =>
    cases nr with
    | failure error => simpa [defaultSummary, addLog, emit] using h1
    | response ok project =>
      cases hs : project.summary <;> simpa [hs, defaultSummary, addLog, emit] using h1

theorem projectTick_timers (h : Nat) (st : St) :
    (projectTick h st).timers = st.timers ∨
    (projectTick h st).timers = st.timers.filter (fun t => t.1 != h) := by
  have hq := request_timers (.projectStatus st.currentJobId.toStr) "GET" .empty st
  simp only [projectTick]
  rcases hreq : request (.projectStatus st.currentJobId.toStr) "GET" .empty st with ⟨st1, r⟩
  rw [hreq] at hq
  have h1 : st1.timers = st.timers := hq.1
  cases r with
  | none => exact Or.inl h1
  | some nr =>
    cases nr with
    | failure error => exact Or.inl (by simpa [addLog, emit] using h1)
    | response ok b =>
      have hr := (projectReport_frame b st1).2.1
      by_cases hc : b.status = .str "completed"
      · refine Or.inr ?_
        simp only [hc, if_true]
        rw [showPreview_timers]
        simp [emit, stopTimer_timers, addLog, clearInterval, hr, h1]
      · by_cases he : b.status = .str "error"
        · refine Or.inr ?_
          simp only [hc, he, if_true, if_false]
          simp [emit, stopTimer_timers, addLog, clearInterval, hr, h1]
        · refine Or.inl ?_
          simp only [hc, he, if_false]
          rw [hr, h1]

theorem assemblyTick_timers (h : Nat) (st : St) :
    (assemblyTick h st).timers = st.timers ∨
    (assemblyTick h st).timers = st.timers.filter (fun t => t.1 != h) := by
  have hq := request_timers (.assemblyStatus st.currentJobId.toStr) "GET" .empty st
  simp only [assemblyTick]
  rcases hreq : request (.assemblyStatus st.currentJobId.toStr) "GET" .empty st with ⟨st1, r⟩
  rw [hreq] at hq
  have h1 : st1.timers = st.timers := hq.1
  cases r with
  | none => exact Or.inl h1
  | some nr =>
    cases nr with
    | failure error => exact Or.inl (by simpa [addLog, emit] using h1)
    | response ok b =>
      have hr := (assemblyReport_frame b st1).2.1
      by_cases hc : b.status = .str "completed"
      · refine Or.inr ?_
        simp only [hc, if_true]
        rw [showPreview_timers]
        simp [emit, stopTimer_timers, addLog, clearInterval, hr, h1]
      · by_cases he : b.status = .str "error"
        · refine Or.inr ?_
          simp only [hc, he, if_true, if_false]
          simp [emit, stopTimer_timers, addLog, clearInterval, hr, h1]
        · refine Or.inl ?_
          simp only [hc, he, if_false]
          rw [hr, h1]

theorem adjustmentTick_timers (h : Nat) (v : JsVal) (t : String) (st : St) :
    (adjustmentTick h v t st).timers = st.timers ∨
    (adjustmentTick h v t st).timers = st.timers.filter (fun x => x.1 != h) := by
  have hq := request_timers (.projectStatus (deriveNext st.currentJobId v)) "GET" .empty st
  simp only [adjustmentTick]
  rcases hreq : request (.projectStatus (deriveNext st.currentJobId v)) "GET" .empty st
    with ⟨st1, r⟩
  rw [hreq] at hq
  have h1 : st1.timers = st.timers := hq.1
  cases r with
  | none => exact Or.inl h1
  | some nr =>
    cases nr with
    | failure error =>
      exact Or.inr (by simp [adjustFailed, addLog, clearInterval, emit, h1])
    | response ok b =>
      by_cases hc : b.status = .str "completed"
      · refine Or.inr ?_
        simp only [hc, if_true]
        have hp := showPreview_timers
          { addLog "调整完成，刷新预览..." "info" (clearInterval h
              (addLog ("调整进度: " ++ b.progress.toStr ++ "%") "info" st1))
            with currentJobId := .str (deriveNext st.currentJobId v) }
        rcases hsp : showPreview
          { addLog "调整完成，刷新预览..." "info" (clearInterval h
              (addLog ("调整进度: " ++ b.progress.toStr ++ "%") "info" st1))
            with currentJobId := .str (deriveNext st.currentJobId v) } with ⟨st4, settled⟩
        rw [hsp] at hp
        have h4 : st4.timers = st.timers.filter (fun x => x.1 != h) := by
          simpa [addLog, clearInterval, emit, h1] using hp
        cases settled with
        | true => simpa [adjustResolved, emit] using h4
        | false => exact h4
      · by_cases he : b.status = .str "error"
        · refine Or.inr ?_
          simp only [hc, he, if_true, if_false]
          simp [adjustFailed, addLog, clearInterval, emit, h1]
        · refine Or.inl ?_
          simp only [hc, he, if_false]
          simpa [addLog, emit] using h1

theorem exportTick_timers (h : Nat) (x : JsVal) (st : St) :
    (exportTick h x st).timers = st.timers ∨
    (exportTick h x st).timers = st.timers.filter (fun t => t.1 != h) := by
  have hq := request_timers (.exportStatus x.toStr) "GET" .empty st
  simp only [exportTick]
  rcases hreq : request (.exportStatus x.toStr) "GET" .empty st with ⟨st1, r⟩
  rw [hreq] at hq
  have h1 : st1.timers = st.timers := hq.1
  cases r with
  | none => exact Or.inl h1
  | some nr =>
    cases nr with
    | failure error =>
      exact Or.inr (by simp [exportFailed, addLog, clearInterval, emit, h1])
    | response ok b =>
      by_cases hc : b.status = .str "completed"
      · refine Or.inr ?_
        simp only [hc, if_true]
        simp [exportResolved, addLog, clearInterval, emit, h1]
      · by_cases he : b.status = .str "error"
        · refine Or.inr ?_
          simp only [hc, he, if_true, if_false]
          simp [exportFailed, addLog, clearInterval, emit, h1]
        · refine Or.inl ?_
          simp only [hc, he, if_false]
          simpa [addLog, emit] using h1

theorem tick_timers (h : Nat) (st : St) :
    (tick h st).timers = st.timers ∨
    (tick h st).timers = st.timers.filter (fun t => t.1 != h) := by
  unfold tick
  cases hl : st.timers.lookup h with
  | none => exact Or.inl rfl
  | some p =>
    cases p with
    | assembly => exact assemblyTick_timers h st
    | project => exact projectTick_timers h st
    | adjustment v t => exact adjustmentTick_timers h v t st
    | exportTask x => exact exportTick_timers h x st

theorem createProject_timers (platform style : String) (st : St) :
    ∃ new, (createProject platform style st).1.timers = st.timers ++ new ∧ new.length ≤ 1 := by
  simp only [createProject]
  by_cases hw : (addLog "开始创建项目..." "info" st).currentWorkflow = "single_video"
  · simp only [hw, if_true]
    cases hf : (addLog "开始创建项目..." "info" st).selectedFile with
    | none =>
      simp only []
      exact ⟨[], by split <;> simp [addLog, emit], by simp⟩
    | some file =>
      have hq := request_timers .createProject "POST"
        (.form (("video", file.name) :: optionFields platform style))
        (addLog "开始创建项目..." "info" st)
      simp only []
      rcases hreq : request .createProject "POST"
        (.form (("video", file.name) :: optionFields platform style))
        (addLog "开始创建项目..." "info" st) with ⟨st2, r⟩
      rw [hreq] at hq
      have h2 : st2.timers = st.timers := by simpa [addLog, emit] using hq.1
      have hn : st2.nextHandle = st.nextHandle := by simpa [addLog, emit] using hq.2
      cases r with
      | none => exact ⟨[], by simpa using h2, by simp⟩
      | some nr =>
        cases nr with
        | failure error =>
          exact ⟨[], by simpa [createFailed, updateTimeline, addLog, emit] using h2, by simp⟩
        | response ok result =>
          cases ok with
          | true =>
            exact ⟨[(st.nextHandle, .project)],
              by simp [pollProjectProgress, startPoll, addLog, emit, h2, hn], by simp⟩
          | false =>
            exact ⟨[], by simpa [createFailed, updateTimeline, addLog, emit] using h2, by simp⟩
  · simp only [hw, if_false]
    cases hf : (addLog "开始创建项目..." "info" st).manifestFile with
    | none => exact ⟨[], by simp [addLog, emit], by simp⟩
    | some manifest =>
      simp only []
      generalize hform : (ReqBody.form (("assets_manifest", manifest.name) ::
        ((match (addLog "开始创建项目..." "info" st).scriptFile with
          | some f => [("script_outline", f.name)]
          | none => []) ++ optionFields platform style))) = form
      have hq := request_timers .createAssembly "POST" form (addLog "开始创建项目..." "info" st)
      rcases hreq : request .createAssembly "POST" form (addLog "开始创建项目..." "info" st)
        with ⟨st2, r⟩
      rw [hreq] at hq
      have h2 : st2.timers = st.timers := by simpa [addLog, emit] using hq.1
      have hn : st2.nextHandle = st.nextHandle := by simpa [addLog, emit] using hq.2
      cases r with
      | none => exact ⟨[], by simpa using h2, by simp⟩
      | some nr =>
        cases nr with
        | failure error =>
          exact ⟨[], by simpa [createFailed, updateTimeline, addLog, emit] using h2, by simp⟩
        | response ok result =>
          cases ok with
          | true =>
            exact ⟨[(st.nextHandle, .assembly)],
              by simp [pollAssemblyProgress, startPoll, addLog, emit, h2, hn], by simp⟩
          | false =>
            exact ⟨[], by simpa [createFailed, updateTimeline, addLog, emit] using h2, by simp⟩

theorem adjustIntent_timers (intentType action t : String) (st : St) :
    ∃ new, (adjustIntent intentType action t st).timers = st.timers ++ new ∧ new.length ≤ 1 := by
  simp only [adjustIntent]
  generalize hst1 : (emit (.dom "btn" "textContent" "处理中...")
    (emit (.dom "btn" "disabled" "true")
      (addLog ("用户调整: " ++ intentType ++ " - " ++ action) "info" st))) = st1
  have e1 : st1.timers = st.timers := by rw [← hst1]; rfl
  have e2 : st1.nextHandle = st.nextHandle := by rw [← hst1]; rfl
  generalize (ReqBody.adjustments (setProp intentType action
    [("pace", "keep"), ("hook", "keep"), ("music", "keep"), ("subtitle", "keep")])) = body
  have hq := request_timers (.adjust st1.currentJobId.toStr) "POST" body st1
  rcases hreq : request (.adjust st1.currentJobId.toStr) "POST" body st1 with ⟨st2, r⟩
  rw [hreq] at hq
  have h2 : st2.timers = st.timers := by rw [hq.1, e1]
  have hn : st2.nextHandle = st.nextHandle := by rw [hq.2, e2]
  cases r with
  | none => exact ⟨[], by simpa using h2, by simp⟩
  | some nr =>
    cases nr with
    | failure error => exact ⟨[], by simpa [adjustFailed, addLog, emit] using h2, by simp⟩
    | response ok result =>
      cases ok with
      | true =>
        exact ⟨[(st.nextHandle, .adjustment result.new_version t)],
          by simp [pollAdjustmentProgress, startPoll, addLog, emit, h2, hn], by simp⟩
      | false => exact ⟨[], by simpa [adjustFailed, addLog, emit] using h2, by simp⟩

theorem exportVideo_timers (quality : String) (st : St) :
    ∃ new, (exportVideo quality st).timers = st.timers ++ new ∧ new.length ≤ 1 := by
  simp only [exportVideo]
  cases hid : (addLog ("开始导出: " ++ quality) "info" st).currentJobId with
  | undefined => exact ⟨[], by simp [exportFailed, addLog, emit], by simp⟩
  | null => exact ⟨[], by simp [exportFailed, addLog, emit], by simp⟩
  | num n => exact ⟨[], by simp [exportFailed, addLog, emit], by simp⟩
  | str id =>
    simp only []
    have hq := request_timers .exports "POST" (.exportTask (baseOf id) quality)
      (addLog ("开始导出: " ++ quality) "info" st)
    rcases hreq : request .exports "POST" (.exportTask (baseOf id) quality)
      (addLog ("开始导出: " ++ quality) "info" st) with ⟨st2, r⟩
    rw [hreq] at hq
    have h2 : st2.timers = st.timers := by simpa [addLog, emit] using hq.1
    have hn : st2.nextHandle = st.nextHandle := by simpa [addLog, emit] using hq.2
    cases r with
    | none => exact ⟨[], by simpa using h2, by simp⟩
    | some nr =>
      cases nr with
      | failure error => exact ⟨[], by simpa [exportFailed, addLog, emit] using h2, by simp⟩
      | response ok result =>
        cases ok with
        | true =>
          exact ⟨[(st.nextHandle, .exportTask result.export_id)],
            by simp [pollExportProgress, startPoll, addLog, emit, h2, hn], by simp⟩
        | false => exact ⟨[], by simpa [exportFailed, addLog, emit] using h2, by simp⟩

theorem step_call_timers (e : Event) (s : St) (hcall : ∀ k, e ≠ .tick k) :
    ∃ new, (step e s).timers = s.timers ++ new ∧ new.length ≤ 1 := by
  cases e with
  | createProject platform style => exact createProject_timers platform style s
  | adjustIntent intentType action t => exact adjustIntent_timers intentType action t s
  | exportVideo quality => exact exportVideo_timers quality s
  | tick k => exact absurd rfl (hcall k)

theorem step_keeps_timer (e : Event) (s : St) (h : Nat) (p : Poller)
    (hactive : (h, p) ∈ s.timers) (hne : e ≠ .tick h) : (h, p) ∈ (step e s).timers := by
  cases e with
  | tick k =>
    have hk : h ≠ k := fun heq => hne (by rw [heq])
    rcases tick_timers k s with ht | ht
    · show (h, p) ∈ (tick k s).timers
      rw [ht]; exact hactive
    · show (h, p) ∈ (tick k s).timers
      rw [ht]
      exact List.mem_filter.2 ⟨hactive, by simpa using hk⟩
  | createProject platform style =>
    obtain ⟨new, hn, _⟩ := createProject_timers platform style s
    show (h, p) ∈ (createProject platform style s).1.timers
    rw [hn]; exact List.mem_append_left _ hactive
  | adjustIntent intentType action t =>
    obtain ⟨new, hn, _⟩ := adjustIntent_timers intentType action t s
    show (h, p) ∈ (adjustIntent intentType action t s).timers
    rw [hn]; exact List.mem_append_left _ hactive
  | exportVideo quality =>
    obtain ⟨new, hn, _⟩ := exportVideo_timers quality s
    show (h, p) ∈ (exportVideo quality s).timers
    rw [hn]; exact List.mem_append_left _ hactive

theorem runEvents_keeps_timer (es : List Event) : ∀ (s : St) (h : Nat) (p : Poller),
    (h, p) ∈ s.timers → Event.tick h ∉ es → (h, p) ∈ (runEvents es s).timers := by
  induction es with
  | nil => intro s h p hactive _; exact hactive
  | cons e es ih =>
    intro s h p hactive hquiet
    have hne : e ≠ .tick h := fun heq => hquiet (by rw [heq]; exact List.mem_cons_self _ _)
    exact ih (step e s) h p (step_keeps_timer e s h p hactive hne)
      (fun hm => hquiet (List.mem_cons_of_mem _ hm))

/-- C11 (as amended): starting a poll cancels nothing. A polling timer that is
scheduled stays scheduled through every sequence of `createProject`,
`adjustIntent` and `exportVideo` calls and ticks of other timers; each such
call keeps all scheduled timers and adds at most one; and a tick removes at
most the timer that fired. Only a run of its own callback cancels a polling
timer, so several can be active at once. -/
theorem starting_a_poll_cancels_nothing (es : List Event) (h : Nat) (p : Poller) (st : St)
    (hactive : (h, p) ∈ st.timers) (hquiet : Event.tick h ∉ es) :
    (h, p) ∈ (runEvents es st).timers ∧
    (∀ e s, (∀ k, e ≠ .tick k) →
      ∃ new, (step e s).timers = s.timers ++ new ∧ new.length ≤ 1) ∧
    (∀ k s, (step (.tick k) s).timers = s.timers ∨
      (step (.tick k) s).timers = s.timers.filter (fun t => t.1 != k)) :=
  ⟨runEvents_keeps_timer es st h p hactive hquiet,
   fun e s hcall => step_call_timers e s hcall,
   fun k s => tick_timers k s⟩

/-- Witness for C11 (as amended): the poll started by a first adjustment is
still scheduled after a second adjustment has started its own poll. -/
theorem starting_a_poll_cancels_nothing_witness :
    (1, Poller.adjustment (.num 1) "a") ∈
      (runEvents [.adjustIntent "pace" "faster" "b"]
        (step (.adjustIntent "hook" "regenerate" "a") twoClicks)).timers :=
  (starting_a_poll_cancels_nothing [.adjustIntent "pace" "faster" "b"] 1
    (.adjustment (.num 1) "a") (step (.adjustIntent "hook" "regenerate" "a") twoClicks)
    (by decide) (by decide)).1

/-- Counterexample to C11 as stated: two adjustments requested one after the
other, both accepted by the backend, leave two polling timers active at the
same time; the second call did not cancel the first poll. -/
theorem two_polls_active_at_once :
    (runEvents [.adjustIntent "hook" "regenerate" "a", .adjustIntent "pace" "faster" "b"]
      twoClicks).timers
      = [(1, .adjustment (.num 1) "a"), (2, .adjustment (.num 2) "b")] ∧
    activePolls (runEvents
      [.adjustIntent "hook" "regenerate" "a", .adjustIntent "pace" "faster" "b"] twoClicks) = 2 ∧
    .clearInterval 1 ∉ (runEvents
      [.adjustIntent "hook" "regenerate" "a", .adjustIntent "pace" "faster" "b"] twoClicks).trace
    := by
  decide
end AutoCut
